import Mathlib

/-!
Verification development for the report-aggregation engine of the
`laceworkreports` repository (`laceworkreports/sdk/ReportHelpers.py`).

The Python source is shallowly embedded: the SQLite-backed sync store and the
declarative SQL aggregation templates become executable Lean functions over
lists of rows.  SQL semantics are modelled exactly as SQLite documents them:

* `NULL` becomes `Option`, with `NULL`-propagating arithmetic;
* SQLite integer division truncates toward zero (`Int.tdiv`);
* floating-point expressions (`CAST(... AS FLOAT)`, `AVG`) are modelled with
  exact rational arithmetic (`ℚ`), and `CAST(... AS INTEGER)` truncates toward
  zero (`qtrunc`);
* `ROW_NUMBER() OVER (PARTITION BY k)=1` ("first row wins", no ORDER BY) marks
  the first row of each partition in table order;
* `SELECT DISTINCT` / `COUNT(DISTINCT ...)` keep the first occurrence of each
  value; `SUM` ignores `NULL` inputs and is `NULL` when all inputs are `NULL`.
-/

namespace LaceworkReports

/-! ## Generic helpers -/

/-- Splits a list of characters at every colon, mirroring Python
`str.split(":")` (an empty input yields one empty segment). -/
def splitColonAux : List Char → List Char → List (List Char)
  | [], acc => [acc.reverse]
  | c :: cs, acc =>
      if c = ':' then acc.reverse :: splitColonAux cs []
      else splitColonAux cs (c :: acc)

/-- The segments of `s` split on `':'`, as Python `s.split(":")` returns them. -/
def splitColon (s : String) : List String :=
  (splitColonAux s.data []).map String.mk

/-- Python `s.split(":")[-1]`: the last colon-separated segment of `s`
(`splitColon` never returns an empty list, so the default is never used). -/
def lastColonSeg (s : String) : String :=
  (splitColon s).getLastD ""

/-- The string `s` contains no colon character. -/
def noColon (s : String) : Prop := ':' ∉ s.data

instance noColonDec (s : String) : Decidable (noColon s) :=
  inferInstanceAs (Decidable (':' ∉ s.data))

/-- Marks each element of a list with `true` exactly when it is the first
occurrence of its value (given the values in `seen` have occurred already).
This is the semantics of `ROW_NUMBER() OVER (PARTITION BY key) = 1` for rows
in table order. -/
def markFirst {K : Type} [DecidableEq K] (seen : List K) : List K → List Bool
  | [] => []
  | k :: ks =>
      if k ∈ seen then false :: markFirst seen ks
      else true :: markFirst (k :: seen) ks

/-- The distinct values of a list in first-occurrence order (excluding values
in `seen`): the semantics of `SELECT DISTINCT` / `COUNT(DISTINCT ...)`. -/
def firstKeys {K : Type} [DecidableEq K] (seen : List K) : List K → List K
  | [] => []
  | k :: ks =>
      if k ∈ seen then firstKeys seen ks
      else k :: firstKeys (k :: seen) ks

/-- SQLite `SUM` over a column of nullable integers: `NULL` inputs are ignored
and the result is `NULL` when every input is `NULL` (also when there is no
input row). -/
def sqlSum (l : List (Option ℤ)) : Option ℤ :=
  let vs := l.filterMap id
  if vs.isEmpty then none else some vs.sum

/-- SQLite `AVG` over a column of nullable integers, as an exact rational:
`NULL` inputs are ignored; the result is `NULL` when every input is `NULL`. -/
def sqlAvg (l : List (Option ℤ)) : Option ℚ :=
  let vs := l.filterMap id
  if vs.isEmpty then none else some ((vs.sum : ℚ) / (vs.length : ℚ))

/-- `NULL`-propagating multiplication (SQLite `x * y`). -/
def optMul : Option ℤ → Option ℤ → Option ℤ
  | some a, some b => some (a * b)
  | _, _ => none

/-- SQLite `CAST(q AS INTEGER)`: truncation of a rational toward zero. -/
def qtrunc (q : ℚ) : ℤ := q.num.tdiv q.den

/-! ## Schema-evolving sync store (`ReportHelper.sqlite_sync_report`,
`ReportHelpers.py` lines 320-428)

A report row is a Python JSON object: an association list from string keys to
Python values.  `pList`/`pDict` values are persisted into a JSON-typed column,
which stores their JSON serialization; the model carries that serialized
payload as an opaque string. -/

/-- A Python-level JSON value as seen by the sync store's type inspection. -/
inductive PyVal where
  | pNone
  | pBool (b : Bool)
  | pInt (n : ℤ)
  | pStr (s : String)
  | pList (json : String)
  | pDict (json : String)
deriving DecidableEq, Repr

/-- A report row: a Python dict, i.e. an association list with distinct keys. -/
abbrev PyRow : Type := List (String × PyVal)

/-- SQLite column types used by the sync store's schema evolution. -/
inductive ColType where
  | json
  | integer
  | text
deriving DecidableEq, Repr

/-- Column-type inference of `sqlite_sync_report` (lines 386-394): `list`/
`dict` values give a JSON column, `int` values an INTEGER column (a Python
`bool` is an instance of `int`), everything else TEXT. -/
def colTypeOf : PyVal → ColType
  | .pList _ => .json
  | .pDict _ => .json
  | .pInt _ => .integer
  | .pBool _ => .integer
  | _ => .text

/-- The keys of a row, in order (`row.keys()`). -/
def rowKeys (row : PyRow) : List String := row.map Prod.fst

/-- The value of `row` at key `k` (`row[k]`; defaults are never used when
`k ∈ rowKeys row`). -/
def rowValue (row : PyRow) (k : String) : PyVal :=
  ((row.find? (fun kv => kv.1 = k)).map Prod.snd).getD .pNone

/-- A synced SQLite table: the evolving schema (column name and type, in
creation order) and the stored rows.  A stored row keeps, for every column
that existed when it was inserted, the inserted value (`none` = SQL `NULL`);
columns added later are absent and read back as `NULL`. -/
structure SyncTable where
  cols : List (String × ColType)
  rows : List (List (String × Option PyVal))
deriving DecidableEq, Repr

/-- Whether the table has a column named `k`. -/
def hasCol (t : SyncTable) (k : String) : Bool :=
  t.cols.any (fun c => c.1 = k)

/-- The row keys absent from the table's columns
(`[x for x in row.keys() if str(x) not in columns]`, line 378). -/
def missingCols (t : SyncTable) (row : PyRow) : List String :=
  (rowKeys row).filter (fun k => ¬ hasCol t k)

/-- One `ALTER TABLE ADD COLUMN` per missing key, each typed by `colTypeOf`
of the failing row's value (lines 381-404). -/
def addCols (t : SyncTable) (row : PyRow) : SyncTable :=
  { t with cols := t.cols ++ (missingCols t row).map (fun k => (k, colTypeOf (rowValue row k))) }

/-- The stored form of `row` under schema `cols`: one cell per current column,
holding the row's value where the row has the key and `NULL` otherwise (the
single-row `DataFrame.to_sql(..., if_exists="append")` insert). -/
def storedRow (cols : List (String × ColType)) (row : PyRow) : List (String × Option PyVal) :=
  cols.map (fun c => (c.1, if c.1 ∈ rowKeys row then some (rowValue row c.1) else none))

/-- Reads a stored row at column `c`; a column absent from the stored row (one
added by a later `ALTER`) reads as `NULL`. -/
def readCell (stored : List (String × Option PyVal)) (c : String) : Option PyVal :=
  ((stored.find? (fun kv => kv.1 = c)).map Prod.snd).getD none

/-- Whether the plain insert succeeds, i.e. every row key names an existing
column; otherwise SQLite raises `table ... has no column named ...`. -/
def insertOk (t : SyncTable) (row : PyRow) : Bool :=
  (rowKeys row).all (hasCol t)

/-- The table created by the first row's insert (`to_sql` with
`if_exists="append"` on the freshly dropped table): one column per row key,
typed by `colTypeOf` of the row's value. -/
def initTable (row : PyRow) : SyncTable :=
  { cols := row.map (fun kv => (kv.1, colTypeOf kv.2)),
    rows := [storedRow (row.map (fun kv => (kv.1, colTypeOf kv.2))) row] }

/-- One sync-loop iteration against an existing table: the plain insert when
every row key has a column, otherwise the `ALTER`-then-retry repair. -/
def syncStep (t : SyncTable) (row : PyRow) : SyncTable :=
  if insertOk t row then
    { t with rows := t.rows ++ [storedRow t.cols row] }
  else
    let t' := addCols t row
    { t' with rows := t'.rows ++ [storedRow t'.cols row] }

/-- One iteration of the sync loop (lines 357-413): the first row creates the
table; afterwards a failing insert is repaired by `addCols` and retried once. -/
def syncRow : Option SyncTable → PyRow → Option SyncTable
  | none, row => some (initTable row)
  | some t, row => some (syncStep t row)

/-- Number of insert retries the sync loop performs for `row` against the
current table state: `0` when the plain insert succeeds (or the insert creates
the table), `1` when the schema must be repaired first. -/
def syncRowRetries (t : Option SyncTable) (row : PyRow) : ℕ :=
  match t with
  | none => 0
  | some t => if insertOk t row then 0 else 1

/-- `ReportHelper.sqlite_sync_report`: the table is dropped, then every report
row is synced in order. -/
def sqlite_sync_report (report : List PyRow) : Option SyncTable :=
  report.foldl syncRow none

/-- The first report row containing key `k` (the row that introduces `k`). -/
def firstRowWith (report : List PyRow) (k : String) : Option PyRow :=
  report.find? (fun r => k ∈ rowKeys r)

/-- The `lwaccount` aggregation query (`SELECT DISTINCT lwaccount FROM
:db_table`, lines 1572-1577; SQLite matches the column name
case-insensitively, so it reads the `lwAccount` column).  Returns `none` when
the table does not exist (SQLite raises `no such table`). -/
def lwaccountQuery (t : Option SyncTable) : Option (List (Option PyVal)) :=
  t.map (fun t => firstKeys [] (t.rows.map (fun s => readCell s "lwAccount")))

/-! ## Compliance aggregation queries (`ComplianceQueries`, lines 1327-1578)

Each top-level compliance report row embeds a `recommendations` JSON array of
per-control objects; the queries explode it with `json_each` (one output row
per control). -/

/-- A per-control recommendation object, with the JSON fields the queries
extract (`json_extract(json_recommendations.value, '$.FIELD')`). -/
structure Recommendation where
  TITLE : String
  INFO_LINK : String
  REC_ID : String
  STATUS : String
  CATEGORY : String
  SERVICE : String
  VIOLATIONS : List String
  SUPPRESSIONS : List String
  RESOURCE_COUNT : ℤ
  ASSESSED_RESOURCE_COUNT : ℤ
  SEVERITY : ℤ
deriving DecidableEq, Repr

/-- A synced compliance report row (one per account and report). -/
structure ComplianceRow where
  reportType : String
  reportTime : String
  reportTitle : String
  accountId : String
  lwAccount : String
  recommendations : List Recommendation
deriving DecidableEq, Repr

/-- The severity-name mapping used by every compliance query
(`CASE WHEN SEVERITY = 1 THEN 'info' ... WHEN SEVERITY = 5 THEN 'critical'
END`, no ELSE branch, hence `NULL` outside 1..5). -/
def sevName (code : ℤ) : Option String :=
  if code = 1 then some "info"
  else if code = 2 then some "low"
  else if code = 3 then some "medium"
  else if code = 4 then some "high"
  else if code = 5 then some "critical"
  else none

/-- The per-control `percent` of the `report` query (lines 1355-1358):
`100` when the violation count exceeds the assessed-resource count, otherwise
`CAST(100 - CAST(vc AS FLOAT)*100/assessed AS INTEGER)` (float division is
modelled exactly; SQLite division by zero yields `NULL`). -/
def compliancePercent (vc assessed : ℤ) : Option ℤ :=
  if vc > assessed then some 100
  else if assessed = 0 then none
  else some (qtrunc ((100 : ℚ) - (vc : ℚ) * 100 / (assessed : ℚ)))

/-- One exploded row of the compliance `report` query (before its WHERE
filter). -/
structure CReportRow where
  reportType : String
  reportTime : String
  reportTitle : String
  accountId : String
  lwAccount : String
  title : String
  info_link : String
  rec_id : String
  status : String
  category : String
  service : String
  violations : List String
  suppressions : List String
  resource_count : ℤ
  assessed_resource_count : ℤ
  violation_count : ℤ
  suppression_count : ℤ
  severity : Option String
  severity_number : ℤ
  percent : Option ℤ
deriving DecidableEq, Repr

/-- Builds one exploded `report`-query row from a report row and one of its
recommendations. -/
def mkCReportRow (row : ComplianceRow) (rec : Recommendation) : CReportRow :=
  { reportType := row.reportType
    reportTime := row.reportTime
    reportTitle := row.reportTitle
    accountId := row.accountId
    lwAccount := row.lwAccount
    title := rec.TITLE
    info_link := rec.INFO_LINK
    rec_id := rec.REC_ID
    status := rec.STATUS
    category := rec.CATEGORY
    service := rec.SERVICE
    violations := rec.VIOLATIONS
    suppressions := rec.SUPPRESSIONS
    resource_count := rec.RESOURCE_COUNT
    assessed_resource_count := rec.ASSESSED_RESOURCE_COUNT
    violation_count := (rec.VIOLATIONS.length : ℤ)
    suppression_count := (rec.SUPPRESSIONS.length : ℤ)
    severity := sevName rec.SEVERITY
    severity_number := rec.SEVERITY
    percent := compliancePercent (rec.VIOLATIONS.length : ℤ) rec.ASSESSED_RESOURCE_COUNT }

/-- The `json_each` explosion shared by all compliance queries: one output row
per (report row, recommendation) pair, in table order. -/
def explodeCompliance (table : List ComplianceRow) : List CReportRow :=
  table.flatMap (fun row => row.recommendations.map (mkCReportRow row))

/-- The compliance `report` query (lines 1328-1368): the exploded rows with
`percent < 100 AND status != 'Compliant'` (a `NULL` percent fails the
comparison).  The query's ORDER BY only reorders the result and is not
modelled; the verified properties are order-independent. -/
def complianceReport (table : List ComplianceRow) : List CReportRow :=
  (explodeCompliance table).filter
    (fun e => (match e.percent with
               | some p => decide (p < 100)
               | none => false)
              && !(e.status = "Compliant"))

/-- One row of the inner sub-select shared by `account_coverage`,
`total_summary` and `lwaccount_summary` (e.g. lines 1416-1432). -/
structure CAccInner where
  lwAccount : String
  accountId : String
  total_assessed_resource_count : ℤ
  total_violation_count : ℤ
  severity : Option String
  severity_number : ℤ
deriving DecidableEq, Repr

/-- The inner exploded select of the compliance aggregation queries. -/
def complianceInner (table : List ComplianceRow) : List CAccInner :=
  table.flatMap (fun row => row.recommendations.map (fun rec =>
    { lwAccount := row.lwAccount
      accountId := row.accountId
      total_assessed_resource_count := rec.ASSESSED_RESOURCE_COUNT
      total_violation_count := (rec.VIOLATIONS.length : ℤ)
      severity := sevName rec.SEVERITY
      severity_number := rec.SEVERITY }))

/-- `SUM(CASE WHEN severity_number = code THEN total_violation_count ELSE 0
END)` over a group of inner rows. -/
def bucketSum (g : List CAccInner) (code : ℤ) : ℤ :=
  (g.map (fun r => if r.severity_number = code then r.total_violation_count else 0)).sum

/-- The aggregate coverage of the compliance summary queries:
`CASE WHEN SUM(v) > SUM(a) THEN 100 ELSE 100 - SUM(v)*100/SUM(a) END`
(SQLite integer division truncates toward zero and yields `NULL` on a zero
divisor; a `NULL` sum propagates to `NULL`). -/
def clampCoverage (sumV sumA : Option ℤ) : Option ℤ :=
  match sumV, sumA with
  | some v, some a =>
      if v > a then some 100
      else if a = 0 then none
      else some (100 - Int.tdiv (v * 100) a)
  | _, _ => none

/-- `CASE WHEN CAST(x AS INTEGER) IS NULL THEN 0 ELSE CAST(x AS INTEGER) END`
applied to a summed column. -/
def coalesce0 (x : Option ℤ) : ℤ := x.getD 0

/-- One output row of the compliance `account_coverage` /
`lwaccount_summary` / `total_summary` queries (the grouping key columns vary;
unused key columns are filled by the callers). -/
structure CCovRow where
  accountId : String
  lwAccount : String
  total_accounts : ℤ
  total_coverage : Option ℤ
  total_assessed_resource_count : ℤ
  total_violation_count : ℤ
  critical : ℤ
  high : ℤ
  medium : ℤ
  low : ℤ
  info : ℤ
deriving DecidableEq, Repr

/-- The aggregate output columns over a group `g` of inner rows.  Note the
severity buckets (lines 1385-1414): the column named `critical` sums rows with
`severity_number = 1`, `high` sums 2, `medium` sums 3, `low` sums 4 and `info`
sums 5. -/
def complianceGroupOut (aid lw : String) (g : List CAccInner) : CCovRow :=
  { accountId := aid
    lwAccount := lw
    total_accounts := ((firstKeys [] (g.map CAccInner.accountId)).length : ℤ)
    total_coverage := clampCoverage
      (sqlSum (g.map (fun r => some r.total_violation_count)))
      (sqlSum (g.map (fun r => some r.total_assessed_resource_count)))
    total_assessed_resource_count :=
      coalesce0 (sqlSum (g.map (fun r => some r.total_assessed_resource_count)))
    total_violation_count :=
      coalesce0 (sqlSum (g.map (fun r => some r.total_violation_count)))
    critical := bucketSum g 1
    high := bucketSum g 2
    medium := bucketSum g 3
    low := bucketSum g 4
    info := bucketSum g 5 }

/-- The compliance `account_coverage` query (lines 1369-1440): the inner rows
grouped by `(accountId, lwAccount)`.  Its ORDER BY only reorders the result
and is not modelled. -/
def complianceAccountCoverage (table : List ComplianceRow) : List CCovRow :=
  let inner := complianceInner table
  (firstKeys [] (inner.map (fun r => (r.accountId, r.lwAccount)))).map
    (fun k => complianceGroupOut k.1 k.2
      (inner.filter (fun r => (r.accountId = k.1) && (r.lwAccount = k.2))))

/-- The compliance `total_summary` query (lines 1441-1504): one aggregate row
over all inner rows, with `lwAccount = 'Any'`. -/
def complianceTotalSummary (table : List ComplianceRow) : CCovRow :=
  complianceGroupOut "" "Any" (complianceInner table)

/-- The compliance `lwaccount_summary` query (lines 1505-1571): the inner
rows grouped by `lwAccount`. -/
def complianceLwaccountSummary (table : List ComplianceRow) : List CCovRow :=
  let inner := complianceInner table
  (firstKeys [] (inner.map CAccInner.lwAccount)).map
    (fun lw => complianceGroupOut "" lw (inner.filter (fun r => r.lwAccount = lw)))

/-! ## Vulnerability aggregation queries (`VulnerabilityQueries`, lines
1580-2292)

Source rows are per-(instance, vulnerability) findings; the queries extract
`json_extract(t.machineTags, '$.InstanceId')` (nullable), restrict to
instances present in the `machines` agent table, deduplicate with
`ROW_NUMBER()` window flags and score each instance with a fixed step
function.  Only the columns the verified claims depend on are carried;
the remaining projected columns (`hostname`, `package_name`, ...) are
pass-through `json_extract` projections that no aggregate reads. -/

/-- A synced vulnerability finding row (the columns the queries aggregate). -/
structure VulnRow where
  lwAccount : String
  accountId : String
  vulnId : String
  severity : String
  instanceId : Option String
deriving DecidableEq, Repr

/-- A row of the companion `machines` agent table (columns `LWACCOUNT`,
`ACCOUNTID`, `TAG_INSTANCEID` of the synced agent-discovery query). -/
structure MachineRow where
  lwAccount : String
  accountId : String
  tagInstanceId : String
deriving DecidableEq, Repr

/-- The inner WHERE filter shared by all vulnerability queries:
`json_extract(t.machineTags,'$.InstanceId') IN (SELECT DISTINCT TAG_INSTANCEID
FROM machines)` (a `NULL` instance id fails the IN test). -/
def vulnFiltered (vrows : List VulnRow) (ms : List MachineRow) : List VulnRow :=
  vrows.filter (fun r =>
    match r.instanceId with
    | some i => (ms.map MachineRow.tagInstanceId).contains i
    | none => false)

/-- Tags each filtered row with its two `ROW_NUMBER() OVER (PARTITION BY
...)=1` flags in table order: `_vulncount` (first row of its
`(instanceId, vulnId)` partition) and `_instcount` (first row of its
`instanceId` partition), given the partitions already seen. -/
def withFlags (seenVK : List (Option String × String)) (seenI : List (Option String)) :
    List VulnRow → List (VulnRow × Bool × Bool)
  | [] => []
  | r :: rs =>
      if (r.instanceId, r.vulnId) ∈ seenVK then
        if r.instanceId ∈ seenI then
          (r, false, false) :: withFlags seenVK seenI rs
        else
          (r, false, true) :: withFlags seenVK (r.instanceId :: seenI) rs
      else
        if r.instanceId ∈ seenI then
          (r, true, false) :: withFlags ((r.instanceId, r.vulnId) :: seenVK) seenI rs
        else
          (r, true, true) :: withFlags ((r.instanceId, r.vulnId) :: seenVK) (r.instanceId :: seenI) rs

/-- The filtered rows with their window flags. -/
def taggedVuln (vrows : List VulnRow) (ms : List MachineRow) : List (VulnRow × Bool × Bool) :=
  withFlags [] [] (vulnFiltered vrows ms)

/-- `SUM(severity_indicator * _vulncount) OVER (PARTITION BY instanceId)`:
the number of deduplicated findings of severity `sev` for instance `i`. -/
def bucketCount (tagged : List (VulnRow × Bool × Bool)) (i : Option String) (sev : String) : ℤ :=
  ((tagged.filter (fun p => (p.1.instanceId = i) && p.2.1 && (p.1.severity = sev))).length : ℤ)

/-- `SUM(_vulncount) OVER (PARTITION BY instanceId)`: the number of
deduplicated findings for instance `i`. -/
def violCount (tagged : List (VulnRow × Bool × Bool)) (i : Option String) : ℤ :=
  ((tagged.filter (fun p => (p.1.instanceId = i) && p.2.1)).length : ℤ)

/-- The fixed per-instance scoring step function (the `CASE` of lines
1597-1613), evaluated in strict priority order on the deduplicated severity
bucket counts; no branch matches when every higher bucket is 0 and
`0 < info ≤ 5`, in which case the SQL `CASE` yields `NULL`. -/
def sevScore (c h m l i : ℤ) : Option ℤ :=
  if c > 10 then some 0
  else if c > 5 then some 5
  else if c > 0 then some 9
  else if h > 10 then some 40
  else if h > 5 then some 45
  else if h > 0 then some 49
  else if m > 10 then some 60
  else if m > 5 then some 65
  else if m > 0 then some 69
  else if l > 10 then some 70
  else if l > 5 then some 75
  else if l > 0 then some 79
  else if i > 10 then some 95
  else if i > 5 then some 90
  else if i = 0 then some 100
  else none

/-- The per-instance `total_coverage` score: the step function applied to the
instance's deduplicated severity-bucket counts. -/
def instScore (tagged : List (VulnRow × Bool × Bool)) (i : Option String) : Option ℤ :=
  sevScore (bucketCount tagged i "Critical") (bucketCount tagged i "High")
    (bucketCount tagged i "Medium") (bucketCount tagged i "Low")
    (bucketCount tagged i "Info")

/-- One row of the windowed view `t3` shared by the vulnerability `report`,
`account_coverage`, `total_summary` and `lwaccount_summary` queries. -/
structure T3Row where
  lwAccount : String
  accountId : String
  instanceId : Option String
  vulnId : String
  severity : String
  vulncount : Bool
  instcount : Bool
  total_violation_count : ℤ
  total_critical : ℤ
  total_high : ℤ
  total_medium : ℤ
  total_low : ℤ
  total_info : ℤ
  total_coverage : Option ℤ
deriving DecidableEq, Repr

/-- Builds one `t3` row from a flagged row (window aggregates are functions of
the row's partition key `instanceId`). -/
def mkT3 (tagged : List (VulnRow × Bool × Bool)) (p : VulnRow × Bool × Bool) : T3Row :=
  { lwAccount := p.1.lwAccount
    accountId := p.1.accountId
    instanceId := p.1.instanceId
    vulnId := p.1.vulnId
    severity := p.1.severity
    vulncount := p.2.1
    instcount := p.2.2
    total_violation_count := violCount tagged p.1.instanceId
    total_critical := bucketCount tagged p.1.instanceId "Critical"
    total_high := bucketCount tagged p.1.instanceId "High"
    total_medium := bucketCount tagged p.1.instanceId "Medium"
    total_low := bucketCount tagged p.1.instanceId "Low"
    total_info := bucketCount tagged p.1.instanceId "Info"
    total_coverage := instScore tagged p.1.instanceId }

/-- The windowed view `t3` (and, projected, the vulnerability `report` query,
lines 1581-1719: its outer SELECT only projects columns of this view). -/
def t3Rows (vrows : List VulnRow) (ms : List MachineRow) : List T3Row :=
  (taggedVuln vrows ms).map (mkT3 (taggedVuln vrows ms))

/-- The vulnerability `report` query result. -/
def vulnReport (vrows : List VulnRow) (ms : List MachineRow) : List T3Row :=
  t3Rows vrows ms

/-- The correlated sub-select `SELECT COUNT(DISTINCT TAG_INSTANCEID) FROM
machines WHERE t3.lwAccount = lwAccount AND t3.accountId = accountId`: the
number of distinct agent instance ids recorded for the group's
`(lwAccount, accountId)`. -/
def machinesCountFor (ms : List MachineRow) (lw aid : String) : ℤ :=
  ((firstKeys []
      ((ms.filter (fun m => (m.lwAccount = lw) && (m.accountId = aid))).map
        MachineRow.tagInstanceId)).length : ℤ)

/-- `_instcount` as the integer SQLite computes with. -/
def instFlagInt (r : T3Row) : ℤ := if r.instcount then 1 else 0

/-- The `t3` rows of the `(lwAccount, accountId)` group. -/
def vulnAccGroup (vrows : List VulnRow) (ms : List MachineRow) (lw aid : String) : List T3Row :=
  (t3Rows vrows ms).filter (fun r => (r.lwAccount = lw) && (r.accountId = aid))

/-- One output row of the vulnerability `account_coverage` query. -/
structure VAccRow where
  lwAccount : String
  accountId : String
  total_assets_in_violation : ℤ
  total_assets : ℤ
  critical : ℤ
  high : ℤ
  medium : ℤ
  low : ℤ
  info : ℤ
  total_violation_count : ℤ
  total_coverage : Option ℤ
deriving DecidableEq, Repr

/-- The aggregates of the vulnerability `account_coverage` query (lines
1720-1898) for one `(lwAccount, accountId)` group: `total_coverage =
((total_assets - COUNT(DISTINCT instanceId))*100 +
SUM(_instcount*total_coverage)) / total_assets` with SQLite semantics
(`0 * NULL = NULL`, `SUM` ignores `NULL`s and is `NULL` when all inputs are,
integer division truncates toward zero and a zero divisor yields `NULL`). -/
def vulnAccOut (vrows : List VulnRow) (ms : List MachineRow) (lw aid : String) : VAccRow :=
  let g := vulnAccGroup vrows ms lw aid
  let A := machinesCountFor ms lw aid
  let V : ℤ := ((firstKeys [] (g.filterMap T3Row.instanceId)).length : ℤ)
  let S := sqlSum (g.map (fun r => optMul (some (instFlagInt r)) r.total_coverage))
  { lwAccount := lw
    accountId := aid
    total_assets_in_violation := V
    total_assets := A
    critical := (g.map (fun r => instFlagInt r * r.total_critical)).sum
    high := (g.map (fun r => instFlagInt r * r.total_high)).sum
    medium := (g.map (fun r => instFlagInt r * r.total_medium)).sum
    low := (g.map (fun r => instFlagInt r * r.total_low)).sum
    info := (g.map (fun r => instFlagInt r * r.total_info)).sum
    total_violation_count := (g.map (fun r => instFlagInt r * r.total_violation_count)).sum
    total_coverage :=
      match S with
      | none => none
      | some s => if A = 0 then none else some (Int.tdiv ((A - V) * 100 + s) A) }

/-- The vulnerability `account_coverage` query: the `t3` rows grouped by
`(lwAccount, accountId)`. -/
def vulnAccountCoverage (vrows : List VulnRow) (ms : List MachineRow) : List VAccRow :=
  (firstKeys [] ((t3Rows vrows ms).map (fun r => (r.lwAccount, r.accountId)))).map
    (fun k => vulnAccOut vrows ms k.1 k.2)

/-- One output row of the vulnerability `total_summary` /
`lwaccount_summary` queries. -/
structure VSumRow where
  lwAccount : String
  total_accounts : ℤ
  total_assets_in_violation : Option ℤ
  total_assets : Option ℤ
  critical : Option ℤ
  high : Option ℤ
  medium : Option ℤ
  low : Option ℤ
  info : Option ℤ
  total_violation_count : Option ℤ
  total_coverage : Option ℤ
deriving DecidableEq, Repr

/-- The shared outer aggregation of the vulnerability summary queries over a
list `t4` of per-account `account_coverage` rows: plain `SUM`s of the account
columns and `CAST(AVG(total_coverage) AS INTEGER)`. -/
def vulnSummaryOut (lw : String) (t4 : List VAccRow) : VSumRow :=
  { lwAccount := lw
    total_accounts := ((firstKeys [] (t4.map VAccRow.accountId)).length : ℤ)
    total_assets_in_violation := sqlSum (t4.map (fun r => some r.total_assets_in_violation))
    total_assets := sqlSum (t4.map (fun r => some r.total_assets))
    critical := sqlSum (t4.map (fun r => some r.critical))
    high := sqlSum (t4.map (fun r => some r.high))
    medium := sqlSum (t4.map (fun r => some r.medium))
    low := sqlSum (t4.map (fun r => some r.low))
    info := sqlSum (t4.map (fun r => some r.info))
    total_violation_count := sqlSum (t4.map (fun r => some r.total_violation_count))
    total_coverage := (sqlAvg (t4.map VAccRow.total_coverage)).map qtrunc }

/-- The vulnerability `total_summary` query (lines 1899-2091): one aggregate
row (`lwAccount = 'Any'`) over all `account_coverage` rows. -/
def vulnTotalSummary (vrows : List VulnRow) (ms : List MachineRow) : VSumRow :=
  vulnSummaryOut "Any" (vulnAccountCoverage vrows ms)

/-- The vulnerability `lwaccount_summary` query (lines 2092-2286): the
`account_coverage` rows grouped by `lwAccount`. -/
def vulnLwaccountSummary (vrows : List VulnRow) (ms : List MachineRow) : List VSumRow :=
  let t4 := vulnAccountCoverage vrows ms
  (firstKeys [] (t4.map VAccRow.lwAccount)).map
    (fun lw => vulnSummaryOut lw (t4.filter (fun r => r.lwAccount = lw)))

/-! ## Cloud-account discovery (`ReportHelper.get_cloud_accounts`, lines
147-318)

The integration pass canonicalizes the configured cloud integrations and
records each provider's raw identifiers in a per-provider dedup list
(`aws_accounts` / `gcp_accounts` / `azure_accounts`); a second pass appends
telemetry-derived (LQL) candidates re-checked against the same lists. -/

/-- A discovered cloud account (the dict of lines 184-192 and friends). -/
structure CloudAccount where
  lwAccount : String
  accountId : String
  name : String
  isOrg : Option Bool
  enabled : Bool
  state : Option Bool
  typ : String
deriving DecidableEq, Repr

/-- A cloud-integration record, discriminated by its `type` tag.  A GCP
record's `orgIdRaw` is `row["data"]["id"] if row["data"]["idType"] ==
"ORGANIZATION" else None`; an AWS record carries its role ARN; an Azure
record covers one subscription id per key of `subscriptionErrors`.
Records of any other `type` are ignored by the loop. -/
inductive IntegrationRow where
  | gcp (name : String) (isOrg enabled stateOk : Bool) (projectIds : List String)
      (orgIdRaw : Option String)
  | aws (name : String) (isOrg enabled stateOk : Bool) (roleArn : String)
  | az (name : String) (isOrg enabled stateOk : Bool) (tenantId : String)
      (subscriptionIds : List String)
  | other
deriving DecidableEq, Repr

/-- A telemetry (LQL) machine-account row (upper-cased result columns). -/
structure MachineAccountRow where
  ACCOUNTID : Option String
  PROJECTID : Option String
  VMPROVIDER : Option String
deriving DecidableEq, Repr

/-- The accumulating discovery state: the result list and the three
provider-scoped dedup lists. -/
structure DiscoveryState where
  accounts : List CloudAccount
  awsSeen : List String
  gcpSeen : List String
  azSeen : List String
deriving DecidableEq, Repr

/-- A Python f-string renders `None` as the string `"None"`
(`f"gcp:{orgId}:{projectId}"` with `orgId = None`). -/
def orgRender : Option String → String
  | some s => s
  | none => "None"

/-- The GCP organization-id resolution of lines 175-180: an explicit org id on
the record always wins; otherwise the caller-supplied override is used;
otherwise the id stays `None`. -/
def gcpResolveOrg (organization orgIdRaw : Option String) : Option String :=
  if orgIdRaw.isSome then orgIdRaw else organization

/-- Python `roleArn.split(":")[4]` (lines 197-199); the default is never used
under the well-formedness hypothesis that a role ARN has at least five
colon-separated segments. -/
def awsAccountOf (roleArn : String) : String :=
  (splitColon roleArn).getD 4 ""

/-- One GCP project of an integration record (the inner loop of lines
182-195): appended unless its project id is already recorded. -/
def gcpProjectStep (lw name : String) (isOrg enabled stateOk : Bool) (orgStr : String)
    (st : DiscoveryState) (projectId : String) : DiscoveryState :=
  if projectId ∈ st.gcpSeen then st
  else
    { st with
      accounts := st.accounts ++
        [⟨lw, "gcp:" ++ orgStr ++ ":" ++ projectId, name, some isOrg, enabled,
          some stateOk, "GcpCfg"⟩]
      gcpSeen := st.gcpSeen ++ [projectId] }

/-- One Azure subscription of an integration record (the inner loop of lines
219-232): appended unless its upper-cased subscription id is recorded. -/
def azSubscriptionStep (lw name : String) (isOrg enabled stateOk : Bool)
    (tenantId : String) (st : DiscoveryState) (subscriptionId : String) :
    DiscoveryState :=
  if subscriptionId.toUpper ∈ st.azSeen then st
  else
    { st with
      accounts := st.accounts ++
        [⟨lw, "az:" ++ tenantId ++ ":" ++ subscriptionId.toUpper, name, some isOrg,
          enabled, some stateOk, "AzureCfg"⟩]
      azSeen := st.azSeen ++ [subscriptionId.toUpper] }

/-- One integration-pass step (the loop body of lines 163-232). -/
def integrationStep (lw : String) (organization : Option String)
    (st : DiscoveryState) : IntegrationRow → DiscoveryState
  | .gcp name isOrg enabled stateOk projectIds orgIdRaw =>
      projectIds.foldl
        (gcpProjectStep lw name isOrg enabled stateOk
          (orgRender (gcpResolveOrg organization orgIdRaw))) st
  | .aws name isOrg enabled stateOk roleArn =>
      let account := awsAccountOf roleArn
      if account ∈ st.awsSeen then st
      else
        { st with
          accounts := st.accounts ++
            [⟨lw, "aws:" ++ account, name, some isOrg, enabled, some stateOk, "AwsCfg"⟩]
          awsSeen := st.awsSeen ++ [account] }
  | .az name isOrg enabled stateOk tenantId subscriptionIds =>
      subscriptionIds.foldl (azSubscriptionStep lw name isOrg enabled stateOk tenantId) st
  | .other => st

/-- One telemetry-pass step (the loop body of lines 261-316): the
`if/elif/elif` ladder over `(ACCOUNTID, PROJECTID, VMPROVIDER)`, each branch
re-checking `accountId.split(":")[-1]` against the provider's dedup list
before appending. -/
def machineStep (lw : String) (st : DiscoveryState) (m : MachineAccountRow) :
    DiscoveryState :=
  if m.ACCOUNTID.isSome ∧ m.VMPROVIDER = some "AWS" ∧
      m.ACCOUNTID.getD "" ∉ st.awsSeen then
    let accountId := "aws:" ++ m.ACCOUNTID.getD ""
    if lastColonSeg accountId ∈ st.awsSeen then st
    else
      { st with
        accounts := st.accounts ++
          [⟨lw, accountId, "LQL Discovered", none, true, none, "AwsLql"⟩]
        awsSeen := st.awsSeen ++ [m.ACCOUNTID.getD ""] }
  else if m.PROJECTID.isSome ∧ m.VMPROVIDER = some "GCE" ∧
      m.PROJECTID.getD "" ∉ st.gcpSeen then
    let accountId := "gcp::" ++ m.PROJECTID.getD ""
    if lastColonSeg accountId ∈ st.gcpSeen then st
    else
      { st with
        accounts := st.accounts ++
          [⟨lw, accountId, "LQL Discovered", none, true, none, "GcpLql"⟩]
        gcpSeen := st.gcpSeen ++ [m.PROJECTID.getD ""] }
  else if m.PROJECTID.isSome ∧ m.VMPROVIDER = some "Azure" ∧
      m.PROJECTID.getD "" ∉ st.azSeen then
    let accountId := "az::" ++ m.PROJECTID.getD ""
    if lastColonSeg accountId ∈ st.azSeen then st
    else
      { st with
        accounts := st.accounts ++
          [⟨lw, accountId, "LQL Discovered", none, true, none, "AzureLql"⟩]
        azSeen := st.azSeen ++ [m.PROJECTID.getD ""] }
  else st

/-- The state after the integration pass only. -/
def integrationPass (lw : String) (organization : Option String)
    (integrations : List IntegrationRow) : DiscoveryState :=
  integrations.foldl (integrationStep lw organization) ⟨[], [], [], []⟩

/-- `ReportHelper.get_cloud_accounts`: the integration pass followed by the
telemetry pass; returns the accumulated account list. -/
def get_cloud_accounts (lw : String) (organization : Option String)
    (integrations : List IntegrationRow) (machineAccounts : List MachineAccountRow) :
    List CloudAccount :=
  (machineAccounts.foldl (machineStep lw) (integrationPass lw organization integrations)).accounts

/-- Parses a canonical account id back into its provider code and the raw
identifier the discovery loops record as its dedup key (0 = AWS, 1 = GCP,
2 = Azure); defined exactly on canonically shaped ids with colon-free
components. -/
def provKey (s : String) : Option (ℕ × String) :=
  match splitColon s with
  | ["aws", k] => some (0, k)
  | ["gcp", _, p] => some (1, p)
  | ["az", _, u] => some (2, u)
  | _ => none

/-- The provider-scoped dedup list for a provider code. -/
def seenFor (st : DiscoveryState) : ℕ → List String
  | 0 => st.awsSeen
  | 1 => st.gcpSeen
  | _ => st.azSeen

/-- The discovery invariant: every accumulated account id parses to a
provider code and key already recorded in that provider's dedup list, and the
accumulated account ids are pairwise distinct. -/
def DiscInv (st : DiscoveryState) : Prop :=
  (∀ a ∈ st.accounts, ∃ c k, provKey a.accountId = some (c, k) ∧ k ∈ seenFor st c) ∧
  (st.accounts.map CloudAccount.accountId).Nodup

/-- Colon-free raw identifiers of an integration record (the amendment's
well-formedness condition). -/
def rowIdsNoColon : IntegrationRow → Prop
  | .gcp _ _ _ _ projectIds orgIdRaw =>
      (∀ p ∈ projectIds, noColon p) ∧ (∀ o, orgIdRaw = some o → noColon o)
  | .aws _ _ _ _ roleArn => noColon (awsAccountOf roleArn)
  | .az _ _ _ _ tenantId subscriptionIds =>
      noColon tenantId ∧ ∀ s ∈ subscriptionIds, noColon s.toUpper
  | .other => True

/-- Colon-free raw identifiers of a telemetry machine-account row. -/
def machineIdsNoColon (m : MachineAccountRow) : Prop :=
  (∀ a, m.ACCOUNTID = some a → noColon a) ∧ (∀ p, m.PROJECTID = some p → noColon p)

/-- The telemetry-pass invariant relative to the integration-pass state
`st1`: the dedup lists only grow, and every telemetry-derived (`*Lql`)
account carries a raw key that was not recorded during the integration
pass. -/
def LqlFresh (st1 st : DiscoveryState) : Prop :=
  (∀ x ∈ st1.awsSeen, x ∈ st.awsSeen) ∧
  (∀ x ∈ st1.gcpSeen, x ∈ st.gcpSeen) ∧
  (∀ x ∈ st1.azSeen, x ∈ st.azSeen) ∧
  ∀ a ∈ st.accounts,
    (a.typ = "AwsLql" → ∃ k, a.accountId = "aws:" ++ k ∧ k ∉ st1.awsSeen) ∧
    (a.typ = "GcpLql" → ∃ k, a.accountId = "gcp::" ++ k ∧ k ∉ st1.gcpSeen) ∧
    (a.typ = "AzureLql" → ∃ k, a.accountId = "az::" ++ k ∧ k ∉ st1.azSeen)

/-- An account produced by the integration pass (not telemetry-derived). -/
def cfgTyp (a : CloudAccount) : Prop :=
  a.typ = "GcpCfg" ∨ a.typ = "AwsCfg" ∨ a.typ = "AzureCfg"

/-- Two GCP integrations whose org/project ids contain colons: both produce
the accountId `gcp:a:b:c` but distinct dedup keys (`c` and `b:c`). -/
def c7Integrations : List IntegrationRow :=
  [.gcp "g1" false true true ["c"] (some "a:b"),
   .gcp "g2" false true true ["b:c"] (some "a")]

/-! ## GCP branch of `ReportHelper.get_compliance_report` (lines 515-533) -/

/-- The observable action the GCP branch takes for a composite account key. -/
inductive GcpAction where
  | skipProject
  | raiseMissingOrg
  | fetch (orgId : Option String) (projectId : String)
deriving DecidableEq, Repr

/-- The GCP branch of `get_compliance_report`: `csp, orgId, projectId =
cloud_account.split(":")` (three segments required, otherwise Python raises a
`ValueError`, modelled as `none`).  The unpacked `orgId` is a Python `str`
taken from `split`, so the embedded value is always `some _`; the guard of
line 518 tests `organization is None and orgId is None` on it. -/
def gcpComplianceAction (cloud_account : String) (organization : Option String)
    (ignore_errors : Bool) : Option GcpAction :=
  match splitColon cloud_account with
  | [_, orgSeg, projectId] =>
      let orgId : Option String := some orgSeg
      some
        (if organization.isNone ∧ orgId.isNone then
          (if ignore_errors then .skipProject else .raiseMissingOrg)
        else
          let resolved := if orgId.isSome then orgId else organization
          .fetch resolved projectId)
  | _ => none

/-! ## Return value of `ReportHelper.get_vulnerability_report` (lines
1005-1204) -/

/-- A fetched vulnerability report row: the payload columns (opaque here) and
the two context fields injected after the fetch. -/
structure VulnFetchRow where
  payload : String
  accountId : Option String
  lwAccount : Option String
deriving DecidableEq, Repr

/-- The relational table targeted by the `use_sqlite` path: its column names
and its row count (only emptiness matters to the probe). -/
structure SqliteTableShape where
  cols : List String
  rowCount : ℕ
deriving DecidableEq, Repr

/-- The value `get_vulnerability_report` returns: either a list of report
rows or the column-name collection of the probe (`fetchall()[0].keys()`). -/
inductive VulnReportResult where
  | rows (rs : List VulnFetchRow)
  | cols (cs : List String)
deriving DecidableEq, Repr

/-- The return value of `get_vulnerability_report` after a successful remote
fetch.  With `use_sqlite=True` and an existing target table, `result` is
reassigned (line 1159) to the keys of the `SELECT * FROM {table} LIMIT 1`
probe row (an empty table raises `IndexError`, modelled as `none`); with a
missing table `result` keeps its initial `[]`; with `use_sqlite=False` each
fetched row gets `accountId`/`lwAccount` injected and `result` collects the
rows (lines 1192-1196). -/
def get_vulnerability_report_value (use_sqlite : Bool) (cloud_account lwAccount : String)
    (report : List VulnFetchRow) (table : Option SqliteTableShape) :
    Option VulnReportResult :=
  if use_sqlite then
    match table with
    | some t => if t.rowCount = 0 then none else some (.cols t.cols)
    | none => some (.rows [])
  else
    some (.rows (report.map (fun r =>
      { r with accountId := some cloud_account, lwAccount := some lwAccount })))

/-- The distinct instance ids of one `(lwAccount, accountId)` vulnerability
group (`COUNT(DISTINCT instanceId)` counts them; every `t3` row's instance id
is non-`NULL`). -/
def groupInstances (vrows : List VulnRow) (ms : List MachineRow) (lw aid : String) :
    List String :=
  firstKeys [] ((vulnAccGroup vrows ms lw aid).filterMap T3Row.instanceId)

/-- The per-instance step-function score of instance `i` (defaulting the
`NULL` gap of the step function to 0; the claim theorems assume the score is
defined). -/
def instScoreD (vrows : List VulnRow) (ms : List MachineRow) (i : String) : ℤ :=
  (instScore (taggedVuln vrows ms) (some i)).getD 0

/-! ## Concrete inputs used by witnesses and counterexamples -/

/-- A two-row schema-drifting report: the second row introduces key `"b"`. -/
def c3Report : List PyRow :=
  [[("a", PyVal.pInt 1)], [("a", PyVal.pInt 2), ("b", PyVal.pStr "x")]]

/-- The table `sqlite_sync_report` produces for `c3Report`. -/
def c3Table : SyncTable :=
  { cols := [("a", ColType.integer), ("b", ColType.text)],
    rows := [[("a", some (PyVal.pInt 1))],
             [("a", some (PyVal.pInt 2)), ("b", some (PyVal.pStr "x"))]] }

/-- Three rows with `lwAccount` values `x`, `y`, `x`. -/
def c9Report : List PyRow :=
  [[("lwAccount", PyVal.pStr "x")], [("lwAccount", PyVal.pStr "y")],
   [("lwAccount", PyVal.pStr "x")]]

/-- A control with severity code 5 (named `critical` by `sevName`) and one
violation. -/
def c1Rec : Recommendation :=
  { TITLE := "ctl", INFO_LINK := "il", REC_ID := "r1", STATUS := "NonCompliant",
    CATEGORY := "cat", SERVICE := "svc", VIOLATIONS := ["res1"], SUPPRESSIONS := [],
    RESOURCE_COUNT := 10, ASSESSED_RESOURCE_COUNT := 10, SEVERITY := 5 }

/-- A compliance report row holding only `c1Rec`. -/
def c1Row : ComplianceRow :=
  { reportType := "AWS_CIS_S3", reportTime := "2022-01-01", reportTitle := "CIS",
    accountId := "aws:111111111111", lwAccount := "LW1", recommendations := [c1Rec] }

/-- A control with 5 violations out of 10 assessed resources. -/
def c6Rec : Recommendation :=
  { TITLE := "ctl5", INFO_LINK := "il", REC_ID := "r5", STATUS := "NonCompliant",
    CATEGORY := "cat", SERVICE := "svc",
    VIOLATIONS := ["v1", "v2", "v3", "v4", "v5"], SUPPRESSIONS := [],
    RESOURCE_COUNT := 10, ASSESSED_RESOURCE_COUNT := 10, SEVERITY := 3 }

/-- A control with 12 violations out of 10 assessed resources (clamped). -/
def c6ClampRec : Recommendation :=
  { TITLE := "ctl12", INFO_LINK := "il", REC_ID := "r12", STATUS := "NonCompliant",
    CATEGORY := "cat", SERVICE := "svc",
    VIOLATIONS := ["v1", "v2", "v3", "v4", "v5", "v6", "v7", "v8", "v9", "v10",
      "v11", "v12"],
    SUPPRESSIONS := [], RESOURCE_COUNT := 10, ASSESSED_RESOURCE_COUNT := 10,
    SEVERITY := 3 }

/-- A compliance report row holding `c6Rec` and `c6ClampRec`. -/
def c6Row : ComplianceRow :=
  { reportType := "AWS_CIS_S3", reportTime := "2022-01-01", reportTitle := "CIS",
    accountId := "aws:111111111111", lwAccount := "LW1",
    recommendations := [c6Rec, c6ClampRec] }

/-- One finding: instance `i1` has one Critical vulnerability. -/
def c4Vulns : List VulnRow :=
  [{ lwAccount := "LW1", accountId := "aws:111111111111", vulnId := "CVE-2022-0001",
     severity := "Critical", instanceId := some "i1" }]

/-- One agent machine backing `c4Vulns`. -/
def c4Machines : List MachineRow :=
  [{ lwAccount := "LW1", accountId := "aws:111111111111", tagInstanceId := "i1" }]

/-- Two tenants' machines: account `aws:A` has one machine, `aws:B` three. -/
def c2Machines : List MachineRow :=
  [{ lwAccount := "LW1", accountId := "aws:A", tagInstanceId := "i1" },
   { lwAccount := "LW1", accountId := "aws:B", tagInstanceId := "j1" },
   { lwAccount := "LW1", accountId := "aws:B", tagInstanceId := "j2" },
   { lwAccount := "LW1", accountId := "aws:B", tagInstanceId := "j3" }]

/-- One Critical finding in each account (per-instance scores 9 and 9;
per-account coverages (1-1)*100+9)/1 = 9 and ((3-1)*100+9)/3 = 69). -/
def c2Vulns : List VulnRow :=
  [{ lwAccount := "LW1", accountId := "aws:A", vulnId := "CVE-2022-0001",
     severity := "Critical", instanceId := some "i1" },
   { lwAccount := "LW1", accountId := "aws:B", vulnId := "CVE-2022-0001",
     severity := "Critical", instanceId := some "j1" }]

/-- Ten machines in one account. -/
def c5Machines : List MachineRow :=
  [{ lwAccount := "LW1", accountId := "aws:A", tagInstanceId := "m1" },
   { lwAccount := "LW1", accountId := "aws:A", tagInstanceId := "m2" },
   { lwAccount := "LW1", accountId := "aws:A", tagInstanceId := "m3" },
   { lwAccount := "LW1", accountId := "aws:A", tagInstanceId := "m4" },
   { lwAccount := "LW1", accountId := "aws:A", tagInstanceId := "m5" },
   { lwAccount := "LW1", accountId := "aws:A", tagInstanceId := "m6" },
   { lwAccount := "LW1", accountId := "aws:A", tagInstanceId := "m7" },
   { lwAccount := "LW1", accountId := "aws:A", tagInstanceId := "m8" },
   { lwAccount := "LW1", accountId := "aws:A", tagInstanceId := "m9" },
   { lwAccount := "LW1", accountId := "aws:A", tagInstanceId := "m10" }]

/-- Two of the ten machines have one Critical finding each (scores 9), so
`account_coverage` is ((10-2)*100 + 18)/10 = 81. -/
def c5Vulns : List VulnRow :=
  [{ lwAccount := "LW1", accountId := "aws:A", vulnId := "CVE-2022-0001",
     severity := "Critical", instanceId := some "m1" },
   { lwAccount := "LW1", accountId := "aws:A", vulnId := "CVE-2022-0002",
     severity := "Critical", instanceId := some "m2" }]

/-- A well-formed discovery input: one GCP integration (org `o1`, project
`p1`), one AWS integration, one AWS telemetry row whose account is already
integrated, one GCP telemetry row for the already-integrated `p1` (dropped)
and one for the new project `p2` (added). -/
def c7GoodIntegrations : List IntegrationRow :=
  [.gcp "gcp-int" false true true ["p1"] (some "o1"),
   .aws "aws-int" false true true "arn:aws:iam::123456789012:role/lacework"]

/-- Telemetry rows for the `c7GoodIntegrations` input. -/
def c7GoodMachines : List MachineAccountRow :=
  [{ ACCOUNTID := some "123456789012", PROJECTID := none, VMPROVIDER := some "AWS" },
   { ACCOUNTID := none, PROJECTID := some "p1", VMPROVIDER := some "GCE" },
   { ACCOUNTID := none, PROJECTID := some "p2", VMPROVIDER := some "GCE" }]

/-! ## Lemmas: distinct-value extraction -/

theorem mem_firstKeys {K : Type} [DecidableEq K] (seen l : List K) (x : K) :
    x ∈ firstKeys seen l ↔ x ∈ l ∧ x ∉ seen := by
  induction l generalizing seen with
  | nil => simp [firstKeys]
  | cons k ks ih =>
      by_cases hk : k ∈ seen
      · rw [firstKeys, if_pos hk, ih]
        constructor
        · rintro ⟨h1, h2⟩
          exact ⟨List.mem_cons_of_mem _ h1, h2⟩
        · rintro ⟨h1, h2⟩
          rcases List.mem_cons.mp h1 with h | h
          · exact absurd (h ▸ hk) h2
          · exact ⟨h, h2⟩
      · rw [firstKeys, if_neg hk]
        simp only [List.mem_cons, ih]
        constructor
        · rintro (rfl | ⟨h1, h2⟩)
          · exact ⟨Or.inl rfl, hk⟩
          · exact ⟨Or.inr h1, fun hs => h2 (Or.inr hs)⟩
        · rintro ⟨rfl | h1, h2⟩
          · exact Or.inl rfl
          · by_cases hxk : x = k
            · exact Or.inl hxk
            · exact Or.inr ⟨h1, fun hs => hs.elim hxk h2⟩

theorem firstKeys_nodup {K : Type} [DecidableEq K] (seen l : List K) :
    (firstKeys seen l).Nodup := by
  induction l generalizing seen with
  | nil => simp [firstKeys]
  | cons k ks ih =>
      by_cases hk : k ∈ seen
      · rw [firstKeys, if_pos hk]; exact ih seen
      · rw [firstKeys, if_neg hk]
        refine List.nodup_cons.mpr ⟨fun hmem => ?_, ih (k :: seen)⟩
        exact ((mem_firstKeys _ _ _).mp hmem).2 (List.mem_cons_self _ _)

theorem firstKeys_toFinset {K : Type} [DecidableEq K] (l : List K) :
    (firstKeys [] l).toFinset = l.toFinset := by
  ext x
  simp [List.mem_toFinset, mem_firstKeys]

/-! ## Lemmas: sync store -/

theorem rowValue_eq (row : PyRow) (k : String) (v : PyVal)
    (hnd : (rowKeys row).Nodup) (hmem : (k, v) ∈ row) : rowValue row k = v := by
  induction row with
  | nil => cases hmem
  | cons kv rest ih =>
      rw [rowKeys, List.map_cons] at hnd
      rcases List.mem_cons.mp hmem with h | hrest
      · cases h
        simp [rowValue, List.find?_cons_of_pos]
      · have hk1 : k ∈ rowKeys rest := List.mem_map.mpr ⟨(k, v), hrest, rfl⟩
        have hne : ¬ (kv.1 = k) := fun h => (List.nodup_cons.mp hnd).1 (h ▸ hk1)
        rw [rowValue, List.find?_cons_of_neg _ (by simpa using hne)]
        exact ih (List.nodup_cons.mp hnd).2 hrest

theorem readCell_storedRow (cols : List (String × ColType)) (row : PyRow) (k : String) :
    readCell (storedRow cols row) k =
      if k ∈ cols.map Prod.fst ∧ k ∈ rowKeys row then some (rowValue row k) else none := by
  induction cols with
  | nil => simp [storedRow, readCell]
  | cons c cs ih =>
      by_cases hc : c.1 = k
      · subst hc
        rw [storedRow, List.map_cons, readCell, List.find?_cons_of_pos _ (by simp)]
        by_cases hr : c.1 ∈ rowKeys row <;> simp [hr]
      · rw [storedRow, List.map_cons, readCell, List.find?_cons_of_neg _ (by simpa using hc)]
        rw [readCell, storedRow] at ih
        rw [ih]
        simp only [List.map_cons, List.mem_cons]
        rcases Decidable.em (k ∈ List.map Prod.fst cs ∧ k ∈ rowKeys row) with h | h
        · rw [if_pos h, if_pos ⟨Or.inr h.1, h.2⟩]
        · rw [if_neg h, if_neg ?_]
          rintro ⟨h1 | h1, h2⟩
          · exact hc h1.symm
          · exact h ⟨h1, h2⟩

theorem hasCol_iff (t : SyncTable) (k : String) :
    hasCol t k = true ↔ k ∈ t.cols.map Prod.fst := by
  simp [hasCol, List.any_eq_true, List.mem_map]

theorem insertOk_iff (t : SyncTable) (row : PyRow) :
    insertOk t row = true ↔ ∀ k ∈ rowKeys row, k ∈ t.cols.map Prod.fst := by
  simp only [insertOk, List.all_eq_true]
  constructor
  · intro h k hk
    exact (hasCol_iff t k).mp (h k hk)
  · intro h k hk
    exact (hasCol_iff t k).mpr (h k hk)

theorem missingCols_eq_nil (t : SyncTable) (row : PyRow) (h : insertOk t row = true) :
    missingCols t row = [] := by
  rw [missingCols, List.filter_eq_nil_iff]
  intro k hk
  simp only [insertOk, List.all_eq_true] at h
  simp [h k hk]

theorem mem_missingCols (t : SyncTable) (row : PyRow) (k : String) :
    k ∈ missingCols t row ↔ k ∈ rowKeys row ∧ hasCol t k = false := by
  simp [missingCols, List.mem_filter]

theorem addCols_eq_of_insertOk (t : SyncTable) (row : PyRow) (h : insertOk t row = true) :
    addCols t row = t := by
  rw [addCols, missingCols_eq_nil t row h]
  simp

theorem addCols_keys (t : SyncTable) (row : PyRow) :
    (addCols t row).cols.map Prod.fst = t.cols.map Prod.fst ++ missingCols t row := by
  rw [addCols]
  simp only [List.map_append, List.map_map]
  congr 1
  have hcomp : (Prod.fst ∘ fun k => (k, colTypeOf (rowValue row k))) = fun k : String => k := rfl
  rw [hcomp, List.map_id']

theorem insertOk_addCols (t : SyncTable) (row : PyRow) :
    insertOk (addCols t row) row = true := by
  rw [insertOk_iff, addCols_keys]
  intro k hk
  by_cases hc : hasCol t k
  · exact List.mem_append_left _ ((hasCol_iff t k).mp hc)
  · exact List.mem_append_right _ ((mem_missingCols t row k).mpr ⟨hk, by simpa using hc⟩)

theorem syncStep_cols (t : SyncTable) (row : PyRow) :
    (syncStep t row).cols = (addCols t row).cols := by
  rw [syncStep]
  by_cases h : insertOk t row
  · rw [if_pos h, addCols_eq_of_insertOk t row h]
  · rw [if_neg h]

theorem syncStep_rows (t : SyncTable) (row : PyRow) :
    (syncStep t row).rows = t.rows ++ [storedRow (addCols t row).cols row] := by
  by_cases h : insertOk t row
  · rw [syncStep, if_pos h, addCols_eq_of_insertOk t row h]
  · rw [syncStep, if_neg h]
    rfl

theorem insertOk_syncStep (t : SyncTable) (row : PyRow) :
    insertOk (syncStep t row) row = true := by
  rw [insertOk_iff, syncStep_cols]
  exact (insertOk_iff _ _).mp (insertOk_addCols t row)

theorem initTable_eq_syncStep (row : PyRow) (hnd : (rowKeys row).Nodup) :
    initTable row = syncStep ⟨[], []⟩ row := by
  have hcols : (syncStep ⟨[], []⟩ row).cols = row.map (fun kv => (kv.1, colTypeOf kv.2)) := by
    rw [syncStep_cols]
    show ([] : List (String × ColType)) ++ (missingCols ⟨[], []⟩ row).map _ = _
    have hmiss : missingCols ⟨[], []⟩ row = rowKeys row := by
      rw [missingCols]
      apply List.filter_eq_self.mpr
      intro k _
      simp [hasCol]
    rw [List.nil_append, hmiss, rowKeys]
    rw [List.map_map]
    apply List.map_congr_left
    intro kv hkv
    have : rowValue row kv.1 = kv.2 := rowValue_eq row kv.1 kv.2 hnd hkv
    simp [Function.comp, this]
  have hrows : (syncStep ⟨[], []⟩ row).rows =
      [storedRow (row.map (fun kv => (kv.1, colTypeOf kv.2))) row] := by
    rw [syncStep_rows, ← syncStep_cols, hcols]
    rfl
  cases h : syncStep ⟨[], []⟩ row with
  | mk c r =>
      rw [h] at hcols hrows
      simp only at hcols hrows
      rw [initTable, hcols, hrows]

theorem foldl_syncRow_some (rs : List PyRow) (t : SyncTable) :
    List.foldl syncRow (some t) rs = some (List.foldl syncStep t rs) := by
  induction rs generalizing t with
  | nil => rfl
  | cons r rest ih => rw [List.foldl_cons, List.foldl_cons, syncRow, ih]

theorem sqlite_sync_report_eq (report : List PyRow) (hne : report ≠ [])
    (hnd : ∀ r ∈ report, (rowKeys r).Nodup) :
    sqlite_sync_report report = some (List.foldl syncStep ⟨[], []⟩ report) := by
  cases report with
  | nil => exact absurd rfl hne
  | cons r rest =>
      rw [sqlite_sync_report, List.foldl_cons, List.foldl_cons]
      show List.foldl syncRow (syncRow none r) rest = _
      rw [syncRow, ← initTable_eq_syncStep r (hnd r (List.mem_cons_self _ _))]
      exact foldl_syncRow_some rest (initTable r)

theorem foldl_syncStep_cols_append (rs : List PyRow) (t : SyncTable) :
    ∃ ext, (List.foldl syncStep t rs).cols = t.cols ++ ext := by
  induction rs generalizing t with
  | nil => exact ⟨[], by simp⟩
  | cons r rest ih =>
      obtain ⟨ext, hext⟩ := ih (syncStep t r)
      refine ⟨(missingCols t r).map (fun k => (k, colTypeOf (rowValue r k))) ++ ext, ?_⟩
      rw [List.foldl_cons, hext, syncStep_cols, addCols, List.append_assoc]

theorem foldl_syncStep_cols_mono (rs : List PyRow) (t : SyncTable) (c : String × ColType)
    (hc : c ∈ t.cols) : c ∈ (List.foldl syncStep t rs).cols := by
  obtain ⟨ext, hext⟩ := foldl_syncStep_cols_append rs t
  rw [hext]
  exact List.mem_append_left _ hc

theorem syncStep_keys_finset (t : SyncTable) (row : PyRow) :
    ((syncStep t row).cols.map Prod.fst).toFinset =
      (t.cols.map Prod.fst).toFinset ∪ (rowKeys row).toFinset := by
  rw [syncStep_cols, addCols_keys]
  ext k
  simp only [List.toFinset_append, Finset.mem_union, List.mem_toFinset, mem_missingCols]
  constructor
  · rintro (h | ⟨h1, _⟩)
    · exact Or.inl h
    · exact Or.inr h1
  · rintro (h | h)
    · exact Or.inl h
    · by_cases hc : hasCol t k
      · exact Or.inl ((hasCol_iff t k).mp hc)
      · exact Or.inr ⟨h, by simpa using hc⟩

theorem foldl_syncStep_keys_finset (rs : List PyRow) (t : SyncTable) :
    ((List.foldl syncStep t rs).cols.map Prod.fst).toFinset =
      (t.cols.map Prod.fst).toFinset ∪
        rs.foldr (fun r acc => (rowKeys r).toFinset ∪ acc) ∅ := by
  induction rs generalizing t with
  | nil => simp
  | cons r rest ih =>
      rw [List.foldl_cons, ih (syncStep t r), syncStep_keys_finset, List.foldr_cons,
        Finset.union_assoc]

theorem foldl_syncStep_keys_nodup (rs : List PyRow) (t : SyncTable)
    (hnd : ∀ r ∈ rs, (rowKeys r).Nodup) (ht : (t.cols.map Prod.fst).Nodup) :
    ((List.foldl syncStep t rs).cols.map Prod.fst).Nodup := by
  induction rs generalizing t with
  | nil => exact ht
  | cons r rest ih =>
      rw [List.foldl_cons]
      refine ih (syncStep t r) (fun x hx => hnd x (List.mem_cons_of_mem _ hx)) ?_
      rw [syncStep_cols, addCols_keys]
      apply List.Nodup.append ht
      · have : (missingCols t r).Sublist (rowKeys r) := List.filter_sublist _
        exact this.nodup (hnd r (List.mem_cons_self _ _))
      · intro k hk hkm
        have := (mem_missingCols t r k).mp hkm
        rw [← hasCol_iff] at hk
        rw [this.2] at hk
        cases hk

theorem foldl_syncStep_cols_types (rs : List PyRow) (t : SyncTable) (k : String) (ty : ColType)
    (hmem : (k, ty) ∈ (List.foldl syncStep t rs).cols) :
    (k, ty) ∈ t.cols ∨
      (hasCol t k = false ∧ ∃ r, firstRowWith rs k = some r ∧ ty = colTypeOf (rowValue r k)) := by
  induction rs generalizing t with
  | nil => exact Or.inl hmem
  | cons r rest ih =>
      rw [List.foldl_cons] at hmem
      rcases ih (syncStep t r) hmem with h | ⟨hcol, r', hfirst, hty⟩
      · rw [syncStep_cols, addCols, List.mem_append] at h
        rcases h with h | h
        · exact Or.inl h
        · obtain ⟨k', hk', hpair⟩ := List.mem_map.mp h
          have hkk : k' = k := congrArg Prod.fst hpair
          have hty : ty = colTypeOf (rowValue r k') := (congrArg Prod.snd hpair).symm
          subst hkk
          have hm := (mem_missingCols t r k').mp hk'
          refine Or.inr ⟨hm.2, r, ?_, hty⟩
          rw [firstRowWith, List.find?_cons_of_pos _ (by simpa using hm.1)]
      · have hcol' : hasCol t k = false ∧ k ∉ rowKeys r := by
          rw [← Bool.not_eq_true, hasCol_iff, syncStep_cols, addCols_keys,
            List.mem_append] at hcol
          push_neg at hcol
          obtain ⟨h1, h2⟩ := hcol
          rw [mem_missingCols] at h2
          constructor
          · rw [← Bool.not_eq_true, hasCol_iff]
            exact h1
          · intro hk
            by_cases hc : hasCol t k
            · exact h1 ((hasCol_iff t k).mp hc)
            · exact h2 ⟨hk, by simpa using hc⟩
        refine Or.inr ⟨hcol'.1, r', ?_, hty⟩
        rw [firstRowWith, List.find?_cons_of_neg _ (by simpa using hcol'.2)]
        exact hfirst

theorem foldl_syncStep_rows_length (rs : List PyRow) (t : SyncTable) :
    (List.foldl syncStep t rs).rows.length = t.rows.length + rs.length := by
  induction rs generalizing t with
  | nil => simp
  | cons r rest ih =>
      rw [List.foldl_cons, ih (syncStep t r), syncStep_rows]
      simp
      omega

theorem foldl_syncStep_rows_old (rs : List PyRow) (t : SyncTable) (i : ℕ)
    (hi : i < t.rows.length) :
    (List.foldl syncStep t rs).rows.get? i = t.rows.get? i := by
  induction rs generalizing t with
  | nil => rfl
  | cons r rest ih =>
      rw [List.foldl_cons]
      have h1 : i < (syncStep t r).rows.length := by
        rw [syncStep_rows, List.length_append]
        omega
      rw [ih (syncStep t r) h1, syncStep_rows]
      exact List.get?_append hi

theorem foldl_syncStep_rows_new (rs : List PyRow) (t : SyncTable) (i : ℕ) (r : PyRow)
    (hr : rs.get? i = some r) :
    ∃ cols', (List.foldl syncStep t rs).rows.get? (t.rows.length + i) =
        some (storedRow cols' r) ∧ ∀ k ∈ rowKeys r, k ∈ cols'.map Prod.fst := by
  induction rs generalizing t i with
  | nil => simp at hr
  | cons r0 rest ih =>
      cases i with
      | zero =>
          rw [List.get?_cons_zero, Option.some_inj] at hr
          subst hr
          refine ⟨(addCols t r0).cols, ?_, ?_⟩
          · rw [List.foldl_cons]
            have h1 : t.rows.length < (syncStep t r0).rows.length := by
              rw [syncStep_rows, List.length_append]
              simp
            rw [Nat.add_zero, foldl_syncStep_rows_old rest (syncStep t r0) _ h1,
              syncStep_rows]
            rw [List.get?_append_right (Nat.le_refl _)]
            simp
          · exact (insertOk_iff (addCols t r0) r0).mp (insertOk_addCols t r0)
      | succ j =>
          rw [List.get?_cons_succ] at hr
          obtain ⟨cols', hget, hkeys⟩ := ih (syncStep t r0) j hr
          refine ⟨cols', ?_, hkeys⟩
          rw [List.foldl_cons] at *
          have hlen : (syncStep t r0).rows.length = t.rows.length + 1 := by
            rw [syncStep_rows, List.length_append]
            simp
          rw [hlen] at hget
          rw [show t.rows.length + (j + 1) = t.rows.length + 1 + j by omega]
          exact hget

theorem foldl_syncStep_rows_map_readCell (k : String) (rs : List PyRow) (t : SyncTable)
    (h : ∀ r ∈ rs, k ∈ rowKeys r) :
    (List.foldl syncStep t rs).rows.map (fun s => readCell s k) =
      t.rows.map (fun s => readCell s k) ++ rs.map (fun r => some (rowValue r k)) := by
  induction rs generalizing t with
  | nil => simp
  | cons r rest ih =>
      rw [List.foldl_cons, ih (syncStep t r) (fun x hx => h x (List.mem_cons_of_mem _ hx)),
        syncStep_rows, List.map_append]
      have hk : k ∈ rowKeys r := h r (List.mem_cons_self _ _)
      have hmem : k ∈ (addCols t r).cols.map Prod.fst :=
        (insertOk_iff _ _).mp (insertOk_addCols t r) k hk
      simp only [List.map_cons, List.map_nil]
      rw [readCell_storedRow, if_pos ⟨hmem, hk⟩]
      simp

theorem lwaccountQuery_sync (report : List PyRow) (hne : report ≠ [])
    (hkeys : ∀ r ∈ report, "lwAccount" ∈ rowKeys r ∧ (rowKeys r).Nodup) :
    lwaccountQuery (sqlite_sync_report report) =
      some (firstKeys [] (report.map (fun r => some (rowValue r "lwAccount")))) := by
  rw [sqlite_sync_report_eq report hne (fun r hr => (hkeys r hr).2), lwaccountQuery,
    Option.map_some']
  congr 1
  rw [foldl_syncStep_rows_map_readCell "lwAccount" report ⟨[], []⟩
    (fun r hr => (hkeys r hr).1)]
  rfl

/-! ## Claim theorems: sync store -/

/-- C3: for every input sequence of JSON-object rows with arbitrarily
differing key sets, after `sqlite_sync_report` (1) the table's column set is
the union of all keys seen across the rows; (2) every previously inserted
row's stored column values are unchanged by the `ALTER TABLE ADD COLUMN`
repairs — row `i` still reads back exactly row `i`'s values at its own keys
and `NULL` elsewhere; (3) each added column is typed JSON when the row
introducing the key holds a list or dict, INTEGER when it holds a Python int,
and TEXT otherwise; (4) columns are only ever added — never removed or
retyped; (5) after adding the missing columns, the failed insert is retried
exactly once and the retry succeeds. -/
theorem claim_C3_schema_evolution (report : List PyRow) (t : SyncTable)
    (hnd : ∀ r ∈ report, (rowKeys r).Nodup)
    (ht : sqlite_sync_report report = some t) :
    ((t.cols.map Prod.fst).toFinset
        = report.foldr (fun r acc => (rowKeys r).toFinset ∪ acc) ∅) ∧
    (t.rows.length = report.length ∧
      ∀ i r s, report.get? i = some r → t.rows.get? i = some s →
        (∀ k v, (k, v) ∈ r → readCell s k = some v) ∧
        (∀ k, k ∉ rowKeys r → readCell s k = none)) ∧
    (∀ k ty, (k, ty) ∈ t.cols →
        ∃ r, firstRowWith report k = some r ∧ ty = colTypeOf (rowValue r k)) ∧
    ((t.cols.map Prod.fst).Nodup ∧
      ∀ (more : List PyRow) (t' : SyncTable),
        sqlite_sync_report (report ++ more) = some t' → ∀ c ∈ t.cols, c ∈ t'.cols) ∧
    (∀ (st : SyncTable) (row : PyRow), syncRowRetries (some st) row ≤ 1 ∧
        (insertOk st row = false →
          syncRowRetries (some st) row = 1 ∧ insertOk (addCols st row) row = true)) := by
  have hne : report ≠ [] := by
    rintro rfl
    rw [sqlite_sync_report] at ht
    cases ht
  have heq := sqlite_sync_report_eq report hne hnd
  rw [heq, Option.some_inj] at ht
  subst ht
  refine ⟨?_, ⟨?_, ?_⟩, ?_, ⟨?_, ?_⟩, ?_⟩
  · rw [foldl_syncStep_keys_finset]
    simp
  · rw [foldl_syncStep_rows_length]
    simp
  · intro i r s hr hs
    obtain ⟨cols', hget, hkeys⟩ := foldl_syncStep_rows_new report ⟨[], []⟩ i r hr
    rw [show (⟨[], []⟩ : SyncTable).rows.length + i = i from Nat.zero_add i] at hget
    rw [hget, Option.some_inj] at hs
    subst hs
    constructor
    · intro k v hkv
      have hk : k ∈ rowKeys r := List.mem_map.mpr ⟨(k, v), hkv, rfl⟩
      rw [readCell_storedRow, if_pos ⟨hkeys k hk, hk⟩,
        rowValue_eq r k v (hnd r (List.get?_mem hr)) hkv]
    · intro k hk
      rw [readCell_storedRow, if_neg (fun hc => hk hc.2)]
  · intro k ty hmem
    rcases foldl_syncStep_cols_types report ⟨[], []⟩ k ty hmem with h | ⟨_, r, hfirst, hty⟩
    · cases h
    · exact ⟨r, hfirst, hty⟩
  · exact foldl_syncStep_keys_nodup report ⟨[], []⟩ hnd (by simp)
  · intro more t' ht' c hc
    have hne' : report ++ more ≠ [] := by
      intro h
      exact hne (List.append_eq_nil.mp h).1
    have hnd1 : ∀ r ∈ report ++ more, (rowKeys r).Nodup → True := fun _ _ _ => trivial
    cases report with
    | nil => exact absurd rfl hne
    | cons r0 rest =>
        rw [List.cons_append, sqlite_sync_report, List.foldl_cons] at ht'
        rw [show syncRow none r0 = some (initTable r0) from rfl,
          initTable_eq_syncStep r0 (hnd r0 (List.mem_cons_self _ _)),
          foldl_syncRow_some, Option.some_inj] at ht'
        subst ht'
        rw [List.foldl_append]
        apply foldl_syncStep_cols_mono
        rw [sqlite_sync_report, List.foldl_cons,
          show syncRow none r0 = some (initTable r0) from rfl,
          initTable_eq_syncStep r0 (hnd r0 (List.mem_cons_self _ _)),
          foldl_syncRow_some, Option.some_inj] at heq
        rw [heq]
        exact hc
  · intro st row
    constructor
    · rw [syncRowRetries]
      split <;> omega
    · intro hno
      refine ⟨?_, insertOk_addCols st row⟩
      rw [syncRowRetries, if_neg (by simp [hno])]

/-- Witness for C3 at a concrete two-row schema-drifting report. -/
theorem claim_C3_schema_evolution_witness :
    (∀ r ∈ c3Report, (rowKeys r).Nodup) ∧
    sqlite_sync_report c3Report = some c3Table ∧
    ((c3Table.cols.map Prod.fst).toFinset
        = c3Report.foldr (fun r acc => (rowKeys r).toFinset ∪ acc) ∅) :=
  ⟨by decide, by decide,
    (claim_C3_schema_evolution c3Report c3Table (by decide) (by decide)).1⟩

/-- C9: rows synced by `sqlite_sync_report` and then queried through the
`lwaccount` aggregation return exactly the distinct set of `lwAccount` values
present in the input rows, and that set is the same for every permutation
(insertion order) of the input rows. -/
theorem claim_C9_lwaccount_roundtrip (report : List PyRow)
    (hne : report ≠ [])
    (hkeys : ∀ r ∈ report, "lwAccount" ∈ rowKeys r ∧ (rowKeys r).Nodup) :
    ∃ res, lwaccountQuery (sqlite_sync_report report) = some res ∧
      res.toFinset = (report.map (fun r => some (rowValue r "lwAccount"))).toFinset ∧
      ∀ report' : List PyRow, report.Perm report' →
        ∃ res', lwaccountQuery (sqlite_sync_report report') = some res' ∧
          res'.toFinset = res.toFinset := by
  refine ⟨_, lwaccountQuery_sync report hne hkeys, firstKeys_toFinset _, ?_⟩
  intro report' hperm
  have hne' : report' ≠ [] := by
    intro h
    subst h
    exact hne hperm.eq_nil
  have hkeys' : ∀ r ∈ report', "lwAccount" ∈ rowKeys r ∧ (rowKeys r).Nodup :=
    fun r hr => hkeys r (hperm.mem_iff.mpr hr)
  refine ⟨_, lwaccountQuery_sync report' hne' hkeys', ?_⟩
  rw [firstKeys_toFinset, firstKeys_toFinset]
  ext x
  simp only [List.mem_toFinset]
  exact (hperm.map (fun r => some (rowValue r "lwAccount"))).mem_iff.symm

/-- Witness for C9 at a concrete three-row report with `lwAccount` values
`x`, `y`, `x`. -/
theorem claim_C9_lwaccount_roundtrip_witness :
    c9Report ≠ [] ∧
    ∃ res, lwaccountQuery (sqlite_sync_report c9Report) = some res ∧
      res.toFinset = (c9Report.map (fun r => some (rowValue r "lwAccount"))).toFinset ∧
      ∀ report' : List PyRow, c9Report.Perm report' →
        ∃ res', lwaccountQuery (sqlite_sync_report report') = some res' ∧
          res'.toFinset = res.toFinset :=
  ⟨by decide, claim_C9_lwaccount_roundtrip c9Report (by decide) (by decide)⟩

/-! ## Claim theorems: compliance queries -/

/-- C1 (code bug): for a compliance table whose single control has severity
code 5 — which the very same queries name `critical` — and one violation, the
`account_coverage`, `total_summary` and `lwaccount_summary` queries put that
violation count into the output column named `info` and `0` into the column
named `critical`: their bucket CASEs sum `severity_number = 1` into
`critical`, ..., `severity_number = 5` into `info`, the reverse of the
severity-name mapping `1→info, ..., 5→critical` used in the same queries. -/
theorem claim_C1_severity_buckets_swapped :
    sevName 5 = some "critical" ∧ sevName 1 = some "info" ∧
    (complianceAccountCoverage [c1Row]).map
        (fun r => (r.critical, r.high, r.medium, r.low, r.info)) = [(0, 0, 0, 0, 1)] ∧
    (complianceTotalSummary [c1Row]).critical = 0 ∧
    (complianceTotalSummary [c1Row]).info = 1 ∧
    (complianceLwaccountSummary [c1Row]).map (fun r => (r.critical, r.info)) =
      [(0, 1)] := by
  decide

/-- C6: each exploded control row's `percent` is 100 when its violation count
exceeds its assessed-resource count and otherwise `100 -
violations*100/assessed` truncated to an integer (violations=5, assessed=10
gives 50); the `report` query returns exactly the control rows with
`percent < 100` and `status != 'Compliant'`, so a row clamped to 100
(violations=12, assessed=10) is excluded. -/
theorem claim_C6_compliance_percent :
    (∀ (table : List ComplianceRow) (e : CReportRow), e ∈ explodeCompliance table →
        e.percent = compliancePercent e.violation_count e.assessed_resource_count) ∧
    (∀ vc a : ℤ, vc > a → compliancePercent vc a = some 100) ∧
    (∀ vc a : ℤ, ¬ vc > a → a ≠ 0 →
        compliancePercent vc a = some (qtrunc ((100 : ℚ) - (vc : ℚ) * 100 / (a : ℚ)))) ∧
    compliancePercent 5 10 = some 50 ∧
    compliancePercent 12 10 = some 100 ∧
    (∀ (table : List ComplianceRow) (e : CReportRow),
        e ∈ complianceReport table ↔
          e ∈ explodeCompliance table ∧ (∃ p, e.percent = some p ∧ p < 100) ∧
            e.status ≠ "Compliant") ∧
    (∀ (table : List ComplianceRow) (e : CReportRow), e ∈ explodeCompliance table →
        e.violation_count = 12 → e.assessed_resource_count = 10 →
        e ∉ complianceReport table) := by
  have hmem : ∀ (table : List ComplianceRow) (e : CReportRow),
      e ∈ explodeCompliance table →
      e.percent = compliancePercent e.violation_count e.assessed_resource_count := by
    intro table e he
    rw [explodeCompliance, List.mem_flatMap] at he
    obtain ⟨row, _, he⟩ := he
    obtain ⟨rec, _, rfl⟩ := List.mem_map.mp he
    rfl
  have hfilter : ∀ (table : List ComplianceRow) (e : CReportRow),
      e ∈ complianceReport table ↔
        e ∈ explodeCompliance table ∧ (∃ p, e.percent = some p ∧ p < 100) ∧
          e.status ≠ "Compliant" := by
    intro table e
    rw [complianceReport, List.mem_filter]
    constructor
    · rintro ⟨h1, h2⟩
      rw [Bool.and_eq_true] at h2
      refine ⟨h1, ?_, ?_⟩
      · rcases hp : e.percent with _ | p
        · rw [hp] at h2
          cases h2.1
        · rw [hp] at h2
          exact ⟨p, rfl, by simpa using h2.1⟩
      · simpa using h2.2
    · rintro ⟨h1, ⟨p, hp, hlt⟩, hst⟩
      refine ⟨h1, ?_⟩
      rw [Bool.and_eq_true, hp]
      exact ⟨by simpa using hlt, by simpa using hst⟩
  have h50 : compliancePercent 5 10 = some 50 := by
    rw [compliancePercent, if_neg (by norm_num), if_neg (by norm_num)]
    have hq : ((100 : ℚ) - (5 : ℤ) * 100 / ((10 : ℤ) : ℚ)) = 50 := by norm_num
    rw [hq]
    simp [qtrunc]
  refine ⟨hmem, ?_, ?_, h50, ?_, hfilter, ?_⟩
  · intro vc a h
    rw [compliancePercent, if_pos h]
  · intro vc a h ha
    rw [compliancePercent, if_neg h, if_neg ha]
  · rw [compliancePercent, if_pos (by norm_num)]
  · intro table e he hvc ha
    intro hin
    obtain ⟨_, ⟨p, hp, hlt⟩, _⟩ := (hfilter table e).mp hin
    rw [hmem table e he, hvc, ha, compliancePercent, if_pos (by norm_num)] at hp
    rw [Option.some_inj] at hp
    omega

/-- Witness for C6: the violations=5/assessed=10 control of `c6Row` carries
`percent = compliancePercent 5 10`, and the clamped violations=12 control is
excluded from the `report` query result. -/
theorem claim_C6_compliance_percent_witness :
    ((mkCReportRow c6Row c6Rec).percent =
      compliancePercent (mkCReportRow c6Row c6Rec).violation_count
        (mkCReportRow c6Row c6Rec).assessed_resource_count) ∧
    (mkCReportRow c6Row c6ClampRec) ∉ complianceReport [c6Row] := by
  have hm1 : mkCReportRow c6Row c6Rec ∈ explodeCompliance [c6Row] := by
    rw [show explodeCompliance [c6Row] =
      [mkCReportRow c6Row c6Rec, mkCReportRow c6Row c6ClampRec] from rfl]
    exact List.mem_cons_self _ _
  have hm2 : mkCReportRow c6Row c6ClampRec ∈ explodeCompliance [c6Row] := by
    rw [show explodeCompliance [c6Row] =
      [mkCReportRow c6Row c6Rec, mkCReportRow c6Row c6ClampRec] from rfl]
    exact List.mem_cons_of_mem _ (List.mem_cons_self _ _)
  exact ⟨claim_C6_compliance_percent.1 [c6Row] _ hm1,
    (claim_C6_compliance_percent.2.2.2.2.2.2) [c6Row] _ hm2 (by decide) (by decide)⟩

/-! ## Claim theorems: GCP missing-organization handling -/

/-- C8 (code bug): for the GCP composite key `gcp::proj-1`, whose organization
segment is empty, and no organization override, `get_compliance_report`
neither skips the project (`ignore_errors=True`) nor raises
(`ignore_errors=False`): the guard `organization is None and orgId is None`
can never fire because `orgId` comes from `cloud_account.split(":")` and is
always a string, so the branch proceeds to fetch with the empty-string
organization id (and for canonical ids built by `get_cloud_accounts` without
an org, the segment is the literal string `"None"`, which is fetched too). -/
theorem claim_C8_missing_org_guard_dead :
    gcpComplianceAction "gcp::proj-1" none true = some (.fetch (some "") "proj-1") ∧
    gcpComplianceAction "gcp::proj-1" none false = some (.fetch (some "") "proj-1") ∧
    gcpComplianceAction "gcp::proj-1" none true ≠ some .skipProject ∧
    gcpComplianceAction "gcp::proj-1" none false ≠ some .raiseMissingOrg ∧
    gcpComplianceAction "gcp:None:proj-1" none false =
      some (.fetch (some "None") "proj-1") := by
  decide

/-! ## Claim theorems: vulnerability-report return value -/

/-- C10: with `use_sqlite=True` and a successful fetch,
`get_vulnerability_report` never returns the fetched report rows: when the
target table exists (and is nonempty) it returns the column-name collection
of the `SELECT * LIMIT 1` probe, and when the table does not exist it returns
the empty list; only the `use_sqlite=False` path returns the report rows with
`accountId`/`lwAccount` injected. -/
theorem claim_C10_sqlite_returns_columns (cloud_account lwAccount : String)
    (report : List VulnFetchRow) (table : Option SqliteTableShape) :
    (∀ t, table = some t → 0 < t.rowCount →
        get_vulnerability_report_value true cloud_account lwAccount report table =
          some (.cols t.cols)) ∧
    (table = none →
        get_vulnerability_report_value true cloud_account lwAccount report table =
          some (.rows [])) ∧
    (∀ rs, get_vulnerability_report_value true cloud_account lwAccount report table =
        some (.rows rs) → rs = []) ∧
    get_vulnerability_report_value false cloud_account lwAccount report table =
      some (.rows (report.map (fun r =>
        { r with accountId := some cloud_account, lwAccount := some lwAccount }))) := by
  refine ⟨?_, ?_, ?_, rfl⟩
  · rintro t rfl hpos
    rw [get_vulnerability_report_value, if_pos rfl]
    rw [if_neg (by omega)]
  · rintro rfl
    rfl
  · intro rs hrs
    cases table with
    | none =>
        rw [get_vulnerability_report_value, if_pos rfl] at hrs
        cases hrs
        rfl
    | some t =>
        rw [get_vulnerability_report_value, if_pos rfl] at hrs
        by_cases h : t.rowCount = 0
        · rw [if_pos h] at hrs
          cases hrs
        · rw [if_neg h] at hrs
          cases hrs

/-- Witness for C10 at concrete inputs: a nonempty two-column table and a
one-row fetched report. -/
theorem claim_C10_sqlite_returns_columns_witness :
    get_vulnerability_report_value true "aws:1" "LW1"
        [{ payload := "p", accountId := none, lwAccount := none }]
        (some { cols := ["vulnId", "severity"], rowCount := 1 }) =
      some (.cols ["vulnId", "severity"]) ∧
    get_vulnerability_report_value true "aws:1" "LW1"
        [{ payload := "p", accountId := none, lwAccount := none }] none =
      some (.rows []) :=
  ⟨(claim_C10_sqlite_returns_columns "aws:1" "LW1" _ _).1 _ rfl (by decide),
    (claim_C10_sqlite_returns_columns "aws:1" "LW1"
      [{ payload := "p", accountId := none, lwAccount := none }] none).2.1 rfl⟩

/-! ## Claim theorems: vulnerability step-function scoring -/

/-- C4: in the vulnerability `report` query, every instance's
`total_coverage` is the fixed step function applied to the deduplicated
per-instance severity-bucket counts, evaluated in strict priority order;
all-zero bucket counts score exactly 100, and `critical = 6` scores 5
regardless of the other bucket counts. -/
theorem claim_C4_step_function (vrows : List VulnRow) (ms : List MachineRow) :
    (∀ r ∈ vulnReport vrows ms,
        r.total_coverage =
          sevScore r.total_critical r.total_high r.total_medium r.total_low
            r.total_info) ∧
    sevScore 0 0 0 0 0 = some 100 ∧
    (∀ h m l i : ℤ, sevScore 6 h m l i = some 5) := by
  refine ⟨?_, by decide, ?_⟩
  · intro r hr
    rw [vulnReport, t3Rows] at hr
    obtain ⟨p, _, rfl⟩ := List.mem_map.mp hr
    rfl
  · intro h m l i
    rw [sevScore, if_neg (by norm_num), if_pos (by norm_num)]

/-- Witness for C4: the single Critical finding of `c4Vulns` yields a report
row whose coverage is the step function of its bucket counts (score 9). -/
theorem claim_C4_step_function_witness :
    ∃ r ∈ vulnReport c4Vulns c4Machines,
      r.total_coverage =
        sevScore r.total_critical r.total_high r.total_medium r.total_low
          r.total_info ∧
      r.total_coverage = some 9 :=
  ⟨mkT3 (taggedVuln c4Vulns c4Machines)
      ({ lwAccount := "LW1", accountId := "aws:111111111111",
         vulnId := "CVE-2022-0001", severity := "Critical",
         instanceId := some "i1" }, true, true),
    by decide,
    (claim_C4_step_function c4Vulns c4Machines).1 _ (by decide), by decide⟩

/-! ## Lemmas: vulnerability window flags -/

theorem withFlags_map_fst (l : List VulnRow) :
    ∀ (sv : List (Option String × String)) (si : List (Option String)),
      (withFlags sv si l).map Prod.fst = l := by
  induction l with
  | nil => intro sv si; rfl
  | cons r rs ih =>
      intro sv si
      by_cases hvk : (r.instanceId, r.vulnId) ∈ sv <;> by_cases hi : r.instanceId ∈ si
      · rw [withFlags, if_pos hvk, if_pos hi, List.map_cons, ih]
      · rw [withFlags, if_pos hvk, if_neg hi, List.map_cons, ih]
      · rw [withFlags, if_neg hvk, if_pos hi, List.map_cons, ih]
      · rw [withFlags, if_neg hvk, if_neg hi, List.map_cons, ih]

theorem withFlags_iflag_ids (l : List VulnRow) :
    ∀ (sv : List (Option String × String)) (si : List (Option String)),
      ((withFlags sv si l).filter (fun p => p.2.2)).map (fun p => p.1.instanceId) =
        firstKeys si (l.map VulnRow.instanceId) := by
  induction l with
  | nil => intro sv si; rfl
  | cons r rs ih =>
      intro sv si
      rw [List.map_cons, firstKeys]
      by_cases hvk : (r.instanceId, r.vulnId) ∈ sv <;> by_cases hi : r.instanceId ∈ si
      · rw [withFlags, if_pos hvk, if_pos hi, if_pos hi,
          List.filter_cons_of_neg (by simp), ih]
      · rw [withFlags, if_pos hvk, if_neg hi, if_neg hi,
          List.filter_cons_of_pos (by simp), List.map_cons, ih]
      · rw [withFlags, if_neg hvk, if_pos hi, if_pos hi,
          List.filter_cons_of_neg (by simp), ih]
      · rw [withFlags, if_neg hvk, if_neg hi, if_neg hi,
          List.filter_cons_of_pos (by simp), List.map_cons, ih]

theorem sum_map_ite {α : Type} (l : List α) (p : α → Bool) (w : α → ℤ) :
    (l.map (fun x => if p x then w x else 0)).sum = ((l.filter p).map w).sum := by
  induction l with
  | nil => rfl
  | cons a t ih =>
      by_cases h : p a
      · rw [List.map_cons, List.sum_cons, List.filter_cons_of_pos h, List.map_cons,
          List.sum_cons, if_pos h, ih]
      · rw [List.map_cons, List.sum_cons, List.filter_cons_of_neg (by simpa using h),
          if_neg h, ih, zero_add]

theorem sqlSum_map_some {α : Type} (l : List α) (v : α → ℤ) (h : l ≠ []) :
    sqlSum (l.map (fun x => some (v x))) = some ((l.map v).sum) := by
  have h1 : ∀ (t : List α), (t.map (fun x => some (v x))).filterMap id = t.map v := by
    intro t
    induction t with
    | nil => rfl
    | cons a t ih => simpa using ih
  simp only [sqlSum, h1 l]
  rw [if_neg (by simpa [List.isEmpty_iff] using h)]

theorem vulnFiltered_isSome (vrows : List VulnRow) (ms : List MachineRow) (v : VulnRow)
    (h : v ∈ vulnFiltered vrows ms) : v.instanceId.isSome := by
  rw [vulnFiltered, List.mem_filter] at h
  rcases hv : v.instanceId with _ | i
  · rw [hv] at h
    simpa using h.2
  · rfl

theorem mem_taggedVuln_fst (vrows : List VulnRow) (ms : List MachineRow)
    (p : VulnRow × Bool × Bool) (hp : p ∈ taggedVuln vrows ms) :
    p.1 ∈ vulnFiltered vrows ms := by
  have := List.mem_map_of_mem Prod.fst hp
  rwa [taggedVuln, withFlags_map_fst] at this

theorem vulnAccGroup_eq (vrows : List VulnRow) (ms : List MachineRow) (lw aid : String) :
    vulnAccGroup vrows ms lw aid =
      ((taggedVuln vrows ms).filter
        (fun p => (p.1.lwAccount = lw) && (p.1.accountId = aid))).map
        (mkT3 (taggedVuln vrows ms)) := by
  rw [vulnAccGroup, t3Rows, List.filter_map]
  rfl

theorem mem_groupInstances_of_mem (vrows : List VulnRow) (ms : List MachineRow)
    (lw aid : String) (p : VulnRow × Bool × Bool)
    (hp : p ∈ (taggedVuln vrows ms).filter
        (fun p => (p.1.lwAccount = lw) && (p.1.accountId = aid))) :
    ∃ i, p.1.instanceId = some i ∧ i ∈ groupInstances vrows ms lw aid := by
  have hpt : p ∈ taggedVuln vrows ms := (List.mem_filter.mp hp).1
  have hfp : p.1 ∈ vulnFiltered vrows ms := mem_taggedVuln_fst vrows ms p hpt
  obtain ⟨i, hi⟩ := Option.isSome_iff_exists.mp (vulnFiltered_isSome vrows ms p.1 hfp)
  refine ⟨i, hi, ?_⟩
  rw [groupInstances, mem_firstKeys]
  refine ⟨?_, by simp⟩
  rw [List.mem_filterMap]
  refine ⟨mkT3 (taggedVuln vrows ms) p, ?_, ?_⟩
  · rw [vulnAccGroup_eq]
    exact List.mem_map_of_mem _ hp
  · exact hi

theorem group_coverage_sum (vrows : List VulnRow) (ms : List MachineRow) (lw aid : String)
    (hsep : ∀ p ∈ vulnFiltered vrows ms, ∀ q ∈ vulnFiltered vrows ms,
        p.instanceId = q.instanceId → p.lwAccount = q.lwAccount ∧ p.accountId = q.accountId)
    (hne : vulnAccGroup vrows ms lw aid ≠ [])
    (hdef : ∀ i ∈ groupInstances vrows ms lw aid,
        (instScore (taggedVuln vrows ms) (some i)).isSome) :
    sqlSum ((vulnAccGroup vrows ms lw aid).map
        (fun r => optMul (some (instFlagInt r)) r.total_coverage)) =
      some (((groupInstances vrows ms lw aid).map (instScoreD vrows ms)).sum) := by
  have hg := vulnAccGroup_eq vrows ms lw aid
  have hmap : (vulnAccGroup vrows ms lw aid).map
      (fun r => optMul (some (instFlagInt r)) r.total_coverage) =
      ((taggedVuln vrows ms).filter
        (fun p => (p.1.lwAccount = lw) && (p.1.accountId = aid))).map
        (fun p => optMul (some (if p.2.2 then 1 else 0))
          (instScore (taggedVuln vrows ms) p.1.instanceId)) := by
    rw [hg, List.map_map]
    rfl
  have hsome : ((taggedVuln vrows ms).filter
        (fun p => (p.1.lwAccount = lw) && (p.1.accountId = aid))).map
        (fun p => optMul (some (if p.2.2 then 1 else 0))
          (instScore (taggedVuln vrows ms) p.1.instanceId)) =
      ((taggedVuln vrows ms).filter
        (fun p => (p.1.lwAccount = lw) && (p.1.accountId = aid))).map
        (fun p => some (if p.2.2 then
          (instScore (taggedVuln vrows ms) p.1.instanceId).getD 0 else 0)) := by
    apply List.map_congr_left
    intro p hp
    obtain ⟨i, hi, hmem⟩ := mem_groupInstances_of_mem vrows ms lw aid p hp
    obtain ⟨s, hs⟩ := Option.isSome_iff_exists.mp (hdef i hmem)
    rw [hi, hs]
    by_cases hf : p.2.2 <;> simp [optMul, hf]
  have hne' : (taggedVuln vrows ms).filter
      (fun p => (p.1.lwAccount = lw) && (p.1.accountId = aid)) ≠ [] := by
    intro h0
    apply hne
    rw [hg, h0]
    rfl
  rw [hmap, hsome, sqlSum_map_some _ _ hne']
  congr 1
  refine (sum_map_ite ((taggedVuln vrows ms).filter
      (fun p => (p.1.lwAccount = lw) && (p.1.accountId = aid)))
    (fun p => p.2.2)
    (fun p => (instScore (taggedVuln vrows ms) p.1.instanceId).getD 0)).trans ?_
  have hw : ((((taggedVuln vrows ms).filter
        (fun p => (p.1.lwAccount = lw) && (p.1.accountId = aid))).filter
          (fun p => p.2.2)).map
        (fun p => (instScore (taggedVuln vrows ms) p.1.instanceId).getD 0)) =
      ((((taggedVuln vrows ms).filter
        (fun p => (p.1.lwAccount = lw) && (p.1.accountId = aid))).filter
          (fun p => p.2.2)).map (fun p => p.1.instanceId)).map
        (fun x => (instScore (taggedVuln vrows ms) x).getD 0) := by
    rw [List.map_map]
    rfl
  have hperm : ((((taggedVuln vrows ms).filter
        (fun p => (p.1.lwAccount = lw) && (p.1.accountId = aid))).filter
          (fun p => p.2.2)).map (fun p => p.1.instanceId)).Perm
      ((groupInstances vrows ms lw aid).map some) := by
    apply List.perm_of_nodup_nodup_toFinset_eq
    · have hsub : (((taggedVuln vrows ms).filter
          (fun p => (p.1.lwAccount = lw) && (p.1.accountId = aid))).filter
            (fun p => p.2.2)).Sublist ((taggedVuln vrows ms).filter (fun p => p.2.2)) :=
        List.Sublist.filter _ (List.filter_sublist _)
      have hnod : (((taggedVuln vrows ms).filter (fun p => p.2.2)).map
          (fun p => p.1.instanceId)).Nodup := by
        rw [taggedVuln, withFlags_iflag_ids]
        exact firstKeys_nodup _ _
      exact hnod.sublist (hsub.map _)
    · exact (firstKeys_nodup _ _).map (fun a b => Option.some_inj.mp)
    · ext x
      simp only [List.mem_toFinset, List.mem_map]
      constructor
      · rintro ⟨p, hp, rfl⟩
        have hp1 := (List.mem_filter.mp hp).1
        obtain ⟨i, hi, hmem⟩ := mem_groupInstances_of_mem vrows ms lw aid p hp1
        exact ⟨i, hmem, hi.symm⟩
      · rintro ⟨i, hmem, rfl⟩
        rw [groupInstances, mem_firstKeys] at hmem
        obtain ⟨r, hr, hri⟩ := List.mem_filterMap.mp hmem.1
        rw [vulnAccGroup_eq] at hr
        obtain ⟨p0, hp0, rfl⟩ := List.mem_map.mp hr
        have hq0 : ((p0.1.lwAccount = lw) && (p0.1.accountId = aid)) = true :=
          (List.mem_filter.mp hp0).2
        have hp0t : p0 ∈ taggedVuln vrows ms := (List.mem_filter.mp hp0).1
        have hp0f : p0.1 ∈ vulnFiltered vrows ms := mem_taggedVuln_fst vrows ms p0 hp0t
        have hp0i : p0.1.instanceId = some i := hri
        have hstar : some i ∈ ((taggedVuln vrows ms).filter (fun p => p.2.2)).map
            (fun p => p.1.instanceId) := by
          rw [taggedVuln, withFlags_iflag_ids, mem_firstKeys]
          refine ⟨?_, by simp⟩
          rw [List.mem_map]
          exact ⟨p0.1, hp0f, hp0i⟩
        obtain ⟨ps, hps, hpsi⟩ := List.mem_map.mp hstar
        have hpst : ps ∈ taggedVuln vrows ms := (List.mem_filter.mp hps).1
        have hpsf : ps.1 ∈ vulnFiltered vrows ms := mem_taggedVuln_fst vrows ms ps hpst
        have hacc := hsep ps.1 hpsf p0.1 hp0f (by rw [hpsi, hp0i])
        rw [Bool.and_eq_true, decide_eq_true_eq, decide_eq_true_eq] at hq0
        refine ⟨ps, ?_, hpsi⟩
        rw [List.filter_filter, List.mem_filter]
        refine ⟨hpst, ?_⟩
        rw [Bool.and_eq_true]
        refine ⟨(List.mem_filter.mp hps).2, ?_⟩
        rw [Bool.and_eq_true, decide_eq_true_eq, decide_eq_true_eq]
        exact ⟨hacc.1.trans hq0.1, hacc.2.trans hq0.2⟩
  refine (congrArg List.sum hw).trans ?_
  rw [(hperm.map (fun x => (instScore (taggedVuln vrows ms) x).getD 0)).sum_eq,
    List.map_map]
  rfl

/-! ## Claim theorems: vulnerability account coverage -/

/-- C5: for every account group of the vulnerability `account_coverage`
query, `total_coverage = ((total_assets - count of distinct instances with
findings) * 100 + sum of the per-instance step-function scores of the
instances with findings) / total_assets` (SQLite integer division), where
`total_assets` counts the distinct agent instance ids recorded in `machines`
for that `(lwAccount, accountId)`.  Hypotheses: an instance id determines its
account among the filtered findings (instances are not shared between
accounts), the group's machine inventory is nonempty (the division is by
`total_assets`), and every scored instance hits a defined branch of the step
function. -/
theorem claim_C5_account_coverage (vrows : List VulnRow) (ms : List MachineRow)
    (hsep : ∀ p ∈ vulnFiltered vrows ms, ∀ q ∈ vulnFiltered vrows ms,
        p.instanceId = q.instanceId →
        p.lwAccount = q.lwAccount ∧ p.accountId = q.accountId) :
    ∀ row ∈ vulnAccountCoverage vrows ms,
      0 < machinesCountFor ms row.lwAccount row.accountId →
      (∀ i ∈ groupInstances vrows ms row.lwAccount row.accountId,
          (instScore (taggedVuln vrows ms) (some i)).isSome) →
      row.total_assets = machinesCountFor ms row.lwAccount row.accountId ∧
      row.total_assets_in_violation =
        ((groupInstances vrows ms row.lwAccount row.accountId).length : ℤ) ∧
      row.total_coverage = some (Int.tdiv
        ((row.total_assets - row.total_assets_in_violation) * 100 +
          ((groupInstances vrows ms row.lwAccount row.accountId).map
            (instScoreD vrows ms)).sum)
        row.total_assets) := by
  intro row hrow
  rw [vulnAccountCoverage] at hrow
  obtain ⟨k, hk, rfl⟩ := List.mem_map.mp hrow
  have hlw : (vulnAccOut vrows ms k.1 k.2).lwAccount = k.1 := rfl
  have haid : (vulnAccOut vrows ms k.1 k.2).accountId = k.2 := rfl
  rw [hlw, haid]
  intro hA hdef
  have hne : vulnAccGroup vrows ms k.1 k.2 ≠ [] := by
    rw [mem_firstKeys] at hk
    obtain ⟨r, hr, hkey⟩ := List.mem_map.mp hk.1
    intro h0
    have hrg : r ∈ vulnAccGroup vrows ms k.1 k.2 := by
      rw [vulnAccGroup, List.mem_filter]
      refine ⟨hr, ?_⟩
      rw [Bool.and_eq_true, decide_eq_true_eq, decide_eq_true_eq]
      exact ⟨congrArg Prod.fst hkey, congrArg Prod.snd hkey⟩
    rw [h0] at hrg
    cases hrg
  have hsum := group_coverage_sum vrows ms k.1 k.2 hsep hne hdef
  refine ⟨rfl, rfl, ?_⟩
  show (match sqlSum ((vulnAccGroup vrows ms k.1 k.2).map
        (fun r => optMul (some (instFlagInt r)) r.total_coverage)) with
      | none => none
      | some s => if machinesCountFor ms k.1 k.2 = 0 then none
          else some (Int.tdiv ((machinesCountFor ms k.1 k.2 -
              ((groupInstances vrows ms k.1 k.2).length : ℤ)) * 100 + s)
            (machinesCountFor ms k.1 k.2))) = _
  rw [hsum]
  show (if machinesCountFor ms k.1 k.2 = 0 then none
      else some (Int.tdiv ((machinesCountFor ms k.1 k.2 -
          ((groupInstances vrows ms k.1 k.2).length : ℤ)) * 100 +
          ((groupInstances vrows ms k.1 k.2).map (instScoreD vrows ms)).sum)
        (machinesCountFor ms k.1 k.2))) = _
  rw [if_neg (by omega)]
  rfl

/-- Witness for C5: an account with 10 machines, 2 instances carrying one
Critical finding each (score 9): coverage = ((10-2)*100 + 18)/10 = 81. -/
theorem claim_C5_account_coverage_witness :
    ∃ row ∈ vulnAccountCoverage c5Vulns c5Machines,
      row.total_coverage = some (Int.tdiv
        ((row.total_assets - row.total_assets_in_violation) * 100 +
          ((groupInstances c5Vulns c5Machines row.lwAccount row.accountId).map
            (instScoreD c5Vulns c5Machines)).sum)
        row.total_assets) ∧
      row.total_coverage = some 81 :=
  ⟨vulnAccOut c5Vulns c5Machines "LW1" "aws:A", by decide,
    ((claim_C5_account_coverage c5Vulns c5Machines (by decide))
        (vulnAccOut c5Vulns c5Machines "LW1" "aws:A") (by decide) (by decide)
        (by decide)).2.2,
    by decide⟩

/-! ## Claim theorems: vulnerability summary coverage -/

/-- C2 (amended): the `total_summary` and `lwaccount_summary` vulnerability
queries compute `CAST(AVG(total_coverage) AS INTEGER)` over the per-account
`account_coverage` rows — the integer-truncated unweighted mean of the
per-account coverage values (ignoring `NULL`s) — not the weighted
full-inventory formula; the weighted formula is applied at the account level
only. -/
theorem claim_C2_summary_is_truncated_average (vrows : List VulnRow)
    (ms : List MachineRow) :
    ((vulnTotalSummary vrows ms).total_coverage =
      (sqlAvg ((vulnAccountCoverage vrows ms).map VAccRow.total_coverage)).map qtrunc) ∧
    (∀ vs : List ℤ,
      vs = ((vulnAccountCoverage vrows ms).map VAccRow.total_coverage).filterMap id →
      vs ≠ [] →
      (vulnTotalSummary vrows ms).total_coverage =
        some (qtrunc ((vs.sum : ℚ) / (vs.length : ℚ)))) ∧
    (∀ row ∈ vulnLwaccountSummary vrows ms, ∃ lw,
      row = vulnSummaryOut lw ((vulnAccountCoverage vrows ms).filter
        (fun r => r.lwAccount = lw)) ∧
      row.total_coverage = (sqlAvg (((vulnAccountCoverage vrows ms).filter
        (fun r => r.lwAccount = lw)).map VAccRow.total_coverage)).map qtrunc) := by
  refine ⟨rfl, ?_, ?_⟩
  · intro vs hvs hne
    show (sqlAvg ((vulnAccountCoverage vrows ms).map VAccRow.total_coverage)).map qtrunc = _
    simp only [sqlAvg, ← hvs]
    rw [if_neg (by simpa [List.isEmpty_iff] using hne)]
    rfl
  · intro row hrow
    rw [vulnLwaccountSummary] at hrow
    obtain ⟨lw, _, rfl⟩ := List.mem_map.mp hrow
    exact ⟨lw, rfl, rfl⟩

/-- Witness for C2's amended claim: at the `c2` input the defined per-account
coverages are 9 and 69, and `total_summary` reports their truncated mean. -/
theorem claim_C2_summary_is_truncated_average_witness :
    (vulnTotalSummary c2Vulns c2Machines).total_coverage =
      some (qtrunc ((([9, 69] : List ℤ).sum : ℚ) / (([9, 69] : List ℤ).length : ℚ))) :=
  (claim_C2_summary_is_truncated_average c2Vulns c2Machines).2.1 [9, 69]
    (by decide) (by decide)

/-- C2 counterexample: with one tenant holding account `aws:A` (1 machine, 1
instance scored 9) and account `aws:B` (3 machines, 1 instance scored 9,
account coverage 69), `total_summary` and `lwaccount_summary` report
`AVG(9, 69) = 39`, while the claimed weighted full-inventory formula
`((total_assets - assets_with_findings)*100 + sum of scores) / total_assets`
over the whole fleet gives `((4-2)*100 + 18)/4 = 54`. -/
theorem claim_C2_counterexample :
    (vulnTotalSummary c2Vulns c2Machines).total_coverage = some 39 ∧
    (vulnLwaccountSummary c2Vulns c2Machines).map VSumRow.total_coverage = [some 39] ∧
    ((firstKeys [] (c2Machines.map MachineRow.tagInstanceId)).length : ℤ) = 4 ∧
    ((firstKeys [] ((t3Rows c2Vulns c2Machines).filterMap T3Row.instanceId)).length : ℤ)
      = 2 ∧
    ((firstKeys [] ((t3Rows c2Vulns c2Machines).filterMap T3Row.instanceId)).map
      (instScoreD c2Vulns c2Machines)).sum = 18 ∧
    Int.tdiv (((4 : ℤ) - 2) * 100 + 18) 4 = 54 ∧
    (vulnTotalSummary c2Vulns c2Machines).total_coverage ≠
      some (Int.tdiv (((4 : ℤ) - 2) * 100 + 18) 4) := by
  have ht4 : vulnAccountCoverage c2Vulns c2Machines =
      [⟨"LW1", "aws:A", 1, 1, 1, 0, 0, 0, 0, 1, some 9⟩,
       ⟨"LW1", "aws:B", 1, 3, 1, 0, 0, 0, 0, 1, some 69⟩] := by decide
  have havg : sqlAvg [some (9 : ℤ), some 69] = some 39 := by
    have hfm : ([some (9 : ℤ), some 69] : List (Option ℤ)).filterMap id = [9, 69] := rfl
    simp only [sqlAvg, hfm]
    norm_num
  have h1 : (vulnTotalSummary c2Vulns c2Machines).total_coverage = some 39 := by
    rw [show (vulnTotalSummary c2Vulns c2Machines).total_coverage =
      (sqlAvg ((vulnAccountCoverage c2Vulns c2Machines).map VAccRow.total_coverage)).map
        qtrunc from rfl, ht4]
    show (sqlAvg [some (9 : ℤ), some 69]).map qtrunc = some 39
    rw [havg]
    show some (qtrunc 39) = some 39
    simp [qtrunc]
  have h2 : (vulnLwaccountSummary c2Vulns c2Machines).map VSumRow.total_coverage =
      [some 39] := by
    have hl : (vulnLwaccountSummary c2Vulns c2Machines).map VSumRow.total_coverage =
        [(sqlAvg [some (9 : ℤ), some 69]).map qtrunc] := by
      rw [vulnLwaccountSummary, ht4]
      rfl
    rw [hl, havg]
    show [some (qtrunc 39)] = [some 39]
    simp [qtrunc]
  refine ⟨h1, h2, by decide, by decide, by decide, by decide, ?_⟩
  rw [h1]
  decide

/-! ## Lemmas: colon splitting of canonical account ids -/

theorem splitColonAux_noColon (u : List Char) :
    ∀ acc : List Char, ':' ∉ u → splitColonAux u acc = [acc.reverse ++ u] := by
  induction u with
  | nil => intro acc _; simp [splitColonAux]
  | cons c cs ih =>
      intro acc h
      have hc : ¬ c = ':' := fun hc => h (hc ▸ List.mem_cons_self c cs)
      rw [splitColonAux, if_neg hc, ih (c :: acc) (fun hm => h (List.mem_cons_of_mem _ hm))]
      simp

theorem splitColonAux_seg (u : List Char) :
    ∀ (rest acc : List Char), ':' ∉ u →
      splitColonAux (u ++ ':' :: rest) acc = (acc.reverse ++ u) :: splitColonAux rest [] := by
  induction u with
  | nil => intro rest acc _; simp [splitColonAux]
  | cons c cs ih =>
      intro rest acc h
      have hc : ¬ c = ':' := fun hc => h (hc ▸ List.mem_cons_self c cs)
      rw [List.cons_append, splitColonAux, if_neg hc,
        ih rest (c :: acc) (fun hm => h (List.mem_cons_of_mem _ hm))]
      simp

theorem splitColon_aws (a : String) (ha : noColon a) :
    splitColon ("aws:" ++ a) = ["aws", a] := by
  have hdata : ("aws:" ++ a).data = ['a', 'w', 's'] ++ ':' :: a.data := by
    rw [String.data_append]
    rfl
  rw [splitColon, hdata, splitColonAux_seg _ _ _ (by decide),
    splitColonAux_noColon _ _ ha]
  rfl

theorem splitColon_gcp (o p : String) (ho : noColon o) (hp : noColon p) :
    splitColon ("gcp:" ++ o ++ ":" ++ p) = ["gcp", o, p] := by
  have hdata : ("gcp:" ++ o ++ ":" ++ p).data
      = ['g', 'c', 'p'] ++ ':' :: (o.data ++ ':' :: p.data) := by
    rw [String.data_append, String.data_append, String.data_append,
      List.append_assoc, List.append_assoc]
    rfl
  rw [splitColon, hdata, splitColonAux_seg _ _ _ (by decide),
    splitColonAux_seg _ _ _ ho, splitColonAux_noColon _ _ hp]
  rfl

theorem splitColon_az (t u : String) (ht : noColon t) (hu : noColon u) :
    splitColon ("az:" ++ t ++ ":" ++ u) = ["az", t, u] := by
  have hdata : ("az:" ++ t ++ ":" ++ u).data
      = ['a', 'z'] ++ ':' :: (t.data ++ ':' :: u.data) := by
    rw [String.data_append, String.data_append, String.data_append,
      List.append_assoc, List.append_assoc]
    rfl
  rw [splitColon, hdata, splitColonAux_seg _ _ _ (by decide),
    splitColonAux_seg _ _ _ ht, splitColonAux_noColon _ _ hu]
  rfl

theorem provKey_aws (a : String) (ha : noColon a) :
    provKey ("aws:" ++ a) = some (0, a) := by
  rw [provKey, splitColon_aws a ha]
  rfl

theorem provKey_gcp (o p : String) (ho : noColon o) (hp : noColon p) :
    provKey ("gcp:" ++ o ++ ":" ++ p) = some (1, p) := by
  rw [provKey, splitColon_gcp o p ho hp]
  rfl

theorem provKey_gcp_lql (p : String) (hp : noColon p) :
    provKey ("gcp::" ++ p) = some (1, p) := by
  have h : ("gcp::" ++ p) = ("gcp:" ++ "" ++ ":" ++ p) := rfl
  rw [h]
  exact provKey_gcp "" p (by decide) hp

theorem provKey_az (t u : String) (ht : noColon t) (hu : noColon u) :
    provKey ("az:" ++ t ++ ":" ++ u) = some (2, u) := by
  rw [provKey, splitColon_az t u ht hu]
  rfl

theorem provKey_az_lql (p : String) (hp : noColon p) :
    provKey ("az::" ++ p) = some (2, p) := by
  have h : ("az::" ++ p) = ("az:" ++ "" ++ ":" ++ p) := rfl
  rw [h]
  exact provKey_az "" p (by decide) hp

theorem lastColonSeg_aws (a : String) (ha : noColon a) :
    lastColonSeg ("aws:" ++ a) = a := by
  rw [lastColonSeg, splitColon_aws a ha]
  rfl

theorem lastColonSeg_gcp_lql (p : String) (hp : noColon p) :
    lastColonSeg ("gcp::" ++ p) = p := by
  have h : ("gcp::" ++ p) = ("gcp:" ++ "" ++ ":" ++ p) := rfl
  rw [lastColonSeg, h, splitColon_gcp "" p (by decide) hp]
  rfl

theorem lastColonSeg_az_lql (p : String) (hp : noColon p) :
    lastColonSeg ("az::" ++ p) = p := by
  have h : ("az::" ++ p) = ("az:" ++ "" ++ ":" ++ p) := rfl
  rw [lastColonSeg, h, splitColon_az "" p (by decide) hp]
  rfl

theorem string_append_left_cancel (u s t : String) (h : u ++ s = u ++ t) : s = t := by
  have h1 : (u ++ s).data = (u ++ t).data := congrArg String.data h
  rw [String.data_append, String.data_append] at h1
  have h2 : s.data = t.data := List.append_cancel_left h1
  exact congrArg String.mk h2

/-! ## Lemmas: discovery dedup invariant -/

theorem inv_extend (st st' : DiscoveryState) (a : CloudAccount) (c : ℕ) (k : String)
    (hacc : st'.accounts = st.accounts ++ [a])
    (hA : ∀ x ∈ st.awsSeen, x ∈ st'.awsSeen)
    (hG : ∀ x ∈ st.gcpSeen, x ∈ st'.gcpSeen)
    (hZ : ∀ x ∈ st.azSeen, x ∈ st'.azSeen)
    (hpk : provKey a.accountId = some (c, k))
    (hk : k ∉ seenFor st c)
    (hknew : k ∈ seenFor st' c)
    (hinv : DiscInv st) : DiscInv st' := by
  have hmono : ∀ c' : ℕ, ∀ x ∈ seenFor st c', x ∈ seenFor st' c' := by
    intro c'
    match c' with
    | 0 => exact hA
    | 1 => exact hG
    | Nat.succ (Nat.succ n) => exact hZ
  constructor
  · intro b hb
    rw [hacc, List.mem_append] at hb
    rcases hb with hb | hb
    · obtain ⟨c', k', hpk', hk'⟩ := hinv.1 b hb
      exact ⟨c', k', hpk', hmono c' k' hk'⟩
    · rw [List.mem_singleton] at hb
      subst hb
      exact ⟨c, k, hpk, hknew⟩
  · rw [hacc, List.map_append]
    refine List.Nodup.append hinv.2 (List.nodup_singleton _) ?_
    intro x hx hxa
    rw [List.map_singleton, List.mem_singleton] at hxa
    subst hxa
    obtain ⟨b, hb, hba⟩ := List.mem_map.mp hx
    obtain ⟨c', k', hpk', hk'⟩ := hinv.1 b hb
    rw [hba, hpk] at hpk'
    rw [Option.some_inj, Prod.mk.injEq] at hpk'
    obtain ⟨rfl, rfl⟩ := hpk'
    exact hk hk'

theorem gcpProjectStep_inv (lw name : String) (isOrg enabled stateOk : Bool)
    (orgStr : String) (ho : noColon orgStr) (st : DiscoveryState) (projectId : String)
    (hp : noColon projectId) (hinv : DiscInv st) :
    DiscInv (gcpProjectStep lw name isOrg enabled stateOk orgStr st projectId) := by
  rw [gcpProjectStep]
  by_cases h : projectId ∈ st.gcpSeen
  · rw [if_pos h]
    exact hinv
  · rw [if_neg h]
    refine inv_extend st _ _ 1 projectId rfl (fun x hx => hx)
      (fun x hx => List.mem_append_left _ hx) (fun x hx => hx)
      (provKey_gcp orgStr projectId ho hp) h
      (List.mem_append_right _ (List.mem_singleton_self _)) hinv

theorem azSubscriptionStep_inv (lw name : String) (isOrg enabled stateOk : Bool)
    (tenantId : String) (ht : noColon tenantId) (st : DiscoveryState)
    (subscriptionId : String) (hs : noColon subscriptionId.toUpper) (hinv : DiscInv st) :
    DiscInv (azSubscriptionStep lw name isOrg enabled stateOk tenantId st
      subscriptionId) := by
  rw [azSubscriptionStep]
  by_cases h : subscriptionId.toUpper ∈ st.azSeen
  · rw [if_pos h]
    exact hinv
  · rw [if_neg h]
    refine inv_extend st _ _ 2 subscriptionId.toUpper rfl (fun x hx => hx)
      (fun x hx => hx) (fun x hx => List.mem_append_left _ hx)
      (provKey_az tenantId subscriptionId.toUpper ht hs) h
      (List.mem_append_right _ (List.mem_singleton_self _)) hinv

theorem orgRender_noColon (organization orgIdRaw : Option String)
    (horg : ∀ o, organization = some o → noColon o)
    (hraw : ∀ o, orgIdRaw = some o → noColon o) :
    noColon (orgRender (gcpResolveOrg organization orgIdRaw)) := by
  cases orgIdRaw with
  | some o => exact hraw o rfl
  | none =>
      cases organization with
      | some o => exact horg o rfl
      | none => decide

theorem gcpFold_inv (lw name : String) (isOrg enabled stateOk : Bool) (orgStr : String)
    (ho : noColon orgStr) :
    ∀ (pids : List String) (st : DiscoveryState), (∀ p ∈ pids, noColon p) → DiscInv st →
      DiscInv (pids.foldl (gcpProjectStep lw name isOrg enabled stateOk orgStr) st) := by
  intro pids
  induction pids with
  | nil => intro st _ h; exact h
  | cons p ps ih =>
      intro st hps hinv
      rw [List.foldl_cons]
      exact ih _ (fun x hx => hps x (List.mem_cons_of_mem _ hx))
        (gcpProjectStep_inv lw name isOrg enabled stateOk orgStr ho st p
          (hps p (List.mem_cons_self _ _)) hinv)

theorem azFold_inv (lw name : String) (isOrg enabled stateOk : Bool) (tenantId : String)
    (ht : noColon tenantId) :
    ∀ (subs : List String) (st : DiscoveryState), (∀ u ∈ subs, noColon u.toUpper) →
      DiscInv st →
      DiscInv (subs.foldl (azSubscriptionStep lw name isOrg enabled stateOk tenantId) st) := by
  intro subs
  induction subs with
  | nil => intro st _ h; exact h
  | cons u us ih =>
      intro st hus hinv
      rw [List.foldl_cons]
      exact ih _ (fun x hx => hus x (List.mem_cons_of_mem _ hx))
        (azSubscriptionStep_inv lw name isOrg enabled stateOk tenantId ht st u
          (hus u (List.mem_cons_self _ _)) hinv)

theorem integrationStep_inv (lw : String) (organization : Option String)
    (st : DiscoveryState) (row : IntegrationRow)
    (horg : ∀ o, organization = some o → noColon o)
    (hrow : rowIdsNoColon row) (hinv : DiscInv st) :
    DiscInv (integrationStep lw organization st row) := by
  cases row with
  | gcp name isOrg enabled stateOk projectIds orgIdRaw =>
      rw [integrationStep]
      exact gcpFold_inv lw name isOrg enabled stateOk _
        (orgRender_noColon organization orgIdRaw horg hrow.2) projectIds st hrow.1 hinv
  | aws name isOrg enabled stateOk roleArn =>
      rw [integrationStep]
      by_cases h : awsAccountOf roleArn ∈ st.awsSeen
      · rw [if_pos h]
        exact hinv
      · rw [if_neg h]
        refine inv_extend st _ _ 0 (awsAccountOf roleArn) rfl
          (fun x hx => List.mem_append_left _ hx) (fun x hx => hx) (fun x hx => hx)
          (provKey_aws _ hrow) h
          (List.mem_append_right _ (List.mem_singleton_self _)) hinv
  | az name isOrg enabled stateOk tenantId subscriptionIds =>
      rw [integrationStep]
      exact azFold_inv lw name isOrg enabled stateOk tenantId hrow.1 subscriptionIds st
        hrow.2 hinv
  | other => exact hinv

theorem integrationFold_inv (lw : String) (organization : Option String)
    (horg : ∀ o, organization = some o → noColon o) :
    ∀ (rows : List IntegrationRow) (st : DiscoveryState),
      (∀ row ∈ rows, rowIdsNoColon row) → DiscInv st →
      DiscInv (rows.foldl (integrationStep lw organization) st) := by
  intro rows
  induction rows with
  | nil => intro st _ h; exact h
  | cons row rows ih =>
      intro st hrows hinv
      rw [List.foldl_cons]
      exact ih _ (fun r hr => hrows r (List.mem_cons_of_mem _ hr))
        (integrationStep_inv lw organization st row horg
          (hrows row (List.mem_cons_self _ _)) hinv)

theorem integrationPass_inv (lw : String) (organization : Option String)
    (integrations : List IntegrationRow)
    (horg : ∀ o, organization = some o → noColon o)
    (hint : ∀ row ∈ integrations, rowIdsNoColon row) :
    DiscInv (integrationPass lw organization integrations) :=
  integrationFold_inv lw organization horg integrations ⟨[], [], [], []⟩ hint
    ⟨fun a ha => absurd ha (List.not_mem_nil a), List.nodup_nil⟩

theorem machineStep_inv (lw : String) (st : DiscoveryState) (m : MachineAccountRow)
    (hm : machineIdsNoColon m) (hinv : DiscInv st) : DiscInv (machineStep lw st m) := by
  rw [machineStep]
  by_cases h1 : m.ACCOUNTID.isSome ∧ m.VMPROVIDER = some "AWS" ∧
      m.ACCOUNTID.getD "" ∉ st.awsSeen
  · rw [if_pos h1]
    have hno : noColon (m.ACCOUNTID.getD "") := by
      obtain ⟨a, ha⟩ := Option.isSome_iff_exists.mp h1.1
      rw [ha]
      exact hm.1 a ha
    by_cases h2 : lastColonSeg ("aws:" ++ m.ACCOUNTID.getD "") ∈ st.awsSeen
    · rw [if_pos h2]
      exact hinv
    · rw [if_neg h2]
      refine inv_extend st _ _ 0 (m.ACCOUNTID.getD "") rfl
        (fun x hx => List.mem_append_left _ hx) (fun x hx => hx) (fun x hx => hx)
        (provKey_aws _ hno) h1.2.2
        (List.mem_append_right _ (List.mem_singleton_self _)) hinv
  · rw [if_neg h1]
    by_cases h2 : m.PROJECTID.isSome ∧ m.VMPROVIDER = some "GCE" ∧
        m.PROJECTID.getD "" ∉ st.gcpSeen
    · rw [if_pos h2]
      have hno : noColon (m.PROJECTID.getD "") := by
        obtain ⟨p, hp⟩ := Option.isSome_iff_exists.mp h2.1
        rw [hp]
        exact hm.2 p hp
      by_cases h3 : lastColonSeg ("gcp::" ++ m.PROJECTID.getD "") ∈ st.gcpSeen
      · rw [if_pos h3]
        exact hinv
      · rw [if_neg h3]
        refine inv_extend st _ _ 1 (m.PROJECTID.getD "") rfl
          (fun x hx => hx) (fun x hx => List.mem_append_left _ hx) (fun x hx => hx)
          (provKey_gcp_lql _ hno) h2.2.2
          (List.mem_append_right _ (List.mem_singleton_self _)) hinv
    · rw [if_neg h2]
      by_cases h3 : m.PROJECTID.isSome ∧ m.VMPROVIDER = some "Azure" ∧
          m.PROJECTID.getD "" ∉ st.azSeen
      · rw [if_pos h3]
        have hno : noColon (m.PROJECTID.getD "") := by
          obtain ⟨p, hp⟩ := Option.isSome_iff_exists.mp h3.1
          rw [hp]
          exact hm.2 p hp
        by_cases h4 : lastColonSeg ("az::" ++ m.PROJECTID.getD "") ∈ st.azSeen
        · rw [if_pos h4]
          exact hinv
        · rw [if_neg h4]
          refine inv_extend st _ _ 2 (m.PROJECTID.getD "") rfl
            (fun x hx => hx) (fun x hx => hx) (fun x hx => List.mem_append_left _ hx)
            (provKey_az_lql _ hno) h3.2.2
            (List.mem_append_right _ (List.mem_singleton_self _)) hinv
      · rw [if_neg h3]
        exact hinv

theorem machineFold_inv (lw : String) :
    ∀ (msl : List MachineAccountRow) (st : DiscoveryState),
      (∀ m ∈ msl, machineIdsNoColon m) → DiscInv st →
      DiscInv (msl.foldl (machineStep lw) st) := by
  intro msl
  induction msl with
  | nil => intro st _ h; exact h
  | cons m rest ih =>
      intro st hms hinv
      rw [List.foldl_cons]
      exact ih _ (fun x hx => hms x (List.mem_cons_of_mem _ hx))
        (machineStep_inv lw st m (hms m (List.mem_cons_self _ _)) hinv)

theorem machineStep_lql (lw : String) (st1 st : DiscoveryState) (m : MachineAccountRow)
    (h : LqlFresh st1 st) : LqlFresh st1 (machineStep lw st m) := by
  obtain ⟨hA, hG, hZ, hacc⟩ := h
  rw [machineStep]
  by_cases h1 : m.ACCOUNTID.isSome ∧ m.VMPROVIDER = some "AWS" ∧
      m.ACCOUNTID.getD "" ∉ st.awsSeen
  · rw [if_pos h1]
    by_cases h2 : lastColonSeg ("aws:" ++ m.ACCOUNTID.getD "") ∈ st.awsSeen
    · rw [if_pos h2]
      exact ⟨hA, hG, hZ, hacc⟩
    · rw [if_neg h2]
      refine ⟨fun x hx => List.mem_append_left _ (hA x hx), hG, hZ, ?_⟩
      intro b hb
      rw [List.mem_append] at hb
      rcases hb with hb | hb
      · exact hacc b hb
      · rw [List.mem_singleton] at hb
        subst hb
        refine ⟨fun _ => ⟨m.ACCOUNTID.getD "", rfl,
          fun hmem => h1.2.2 (hA _ hmem)⟩, ?_, ?_⟩
        · intro habs
          simp at habs
        · intro habs
          simp at habs
  · rw [if_neg h1]
    by_cases h2 : m.PROJECTID.isSome ∧ m.VMPROVIDER = some "GCE" ∧
        m.PROJECTID.getD "" ∉ st.gcpSeen
    · rw [if_pos h2]
      by_cases h3 : lastColonSeg ("gcp::" ++ m.PROJECTID.getD "") ∈ st.gcpSeen
      · rw [if_pos h3]
        exact ⟨hA, hG, hZ, hacc⟩
      · rw [if_neg h3]
        refine ⟨hA, fun x hx => List.mem_append_left _ (hG x hx), hZ, ?_⟩
        intro b hb
        rw [List.mem_append] at hb
        rcases hb with hb | hb
        · exact hacc b hb
        · rw [List.mem_singleton] at hb
          subst hb
          refine ⟨?_, fun _ => ⟨m.PROJECTID.getD "", rfl,
            fun hmem => h2.2.2 (hG _ hmem)⟩, ?_⟩
          · intro habs
            simp at habs
          · intro habs
            simp at habs
    · rw [if_neg h2]
      by_cases h3 : m.PROJECTID.isSome ∧ m.VMPROVIDER = some "Azure" ∧
          m.PROJECTID.getD "" ∉ st.azSeen
      · rw [if_pos h3]
        by_cases h4 : lastColonSeg ("az::" ++ m.PROJECTID.getD "") ∈ st.azSeen
        · rw [if_pos h4]
          exact ⟨hA, hG, hZ, hacc⟩
        · rw [if_neg h4]
          refine ⟨hA, hG, fun x hx => List.mem_append_left _ (hZ x hx), ?_⟩
          intro b hb
          rw [List.mem_append] at hb
          rcases hb with hb | hb
          · exact hacc b hb
          · rw [List.mem_singleton] at hb
            subst hb
            refine ⟨?_, ?_, fun _ => ⟨m.PROJECTID.getD "", rfl,
              fun hmem => h3.2.2 (hZ _ hmem)⟩⟩
            · intro habs
              simp at habs
            · intro habs
              simp at habs
      · rw [if_neg h3]
        exact ⟨hA, hG, hZ, hacc⟩

theorem machineFold_lql (lw : String) (st1 : DiscoveryState) :
    ∀ (msl : List MachineAccountRow) (st : DiscoveryState),
      LqlFresh st1 st → LqlFresh st1 (msl.foldl (machineStep lw) st) := by
  intro msl
  induction msl with
  | nil => intro st h; exact h
  | cons m rest ih =>
      intro st h
      rw [List.foldl_cons]
      exact ih _ (machineStep_lql lw st1 st m h)

theorem gcpProjectStep_typs (lw name : String) (isOrg enabled stateOk : Bool)
    (orgStr : String) (st : DiscoveryState) (p : String)
    (h : ∀ a ∈ st.accounts, cfgTyp a) :
    ∀ a ∈ (gcpProjectStep lw name isOrg enabled stateOk orgStr st p).accounts,
      cfgTyp a := by
  rw [gcpProjectStep]
  by_cases hp : p ∈ st.gcpSeen
  · rw [if_pos hp]
    exact h
  · rw [if_neg hp]
    intro a ha
    rw [List.mem_append] at ha
    rcases ha with ha | ha
    · exact h a ha
    · rw [List.mem_singleton] at ha
      subst ha
      exact Or.inl rfl

theorem azSubscriptionStep_typs (lw name : String) (isOrg enabled stateOk : Bool)
    (tenantId : String) (st : DiscoveryState) (u : String)
    (h : ∀ a ∈ st.accounts, cfgTyp a) :
    ∀ a ∈ (azSubscriptionStep lw name isOrg enabled stateOk tenantId st u).accounts,
      cfgTyp a := by
  rw [azSubscriptionStep]
  by_cases hu : u.toUpper ∈ st.azSeen
  · rw [if_pos hu]
    exact h
  · rw [if_neg hu]
    intro a ha
    rw [List.mem_append] at ha
    rcases ha with ha | ha
    · exact h a ha
    · rw [List.mem_singleton] at ha
      subst ha
      exact Or.inr (Or.inr rfl)

theorem integrationStep_typs (lw : String) (organization : Option String)
    (st : DiscoveryState) (row : IntegrationRow)
    (h : ∀ a ∈ st.accounts, cfgTyp a) :
    ∀ a ∈ (integrationStep lw organization st row).accounts, cfgTyp a := by
  cases row with
  | gcp name isOrg enabled stateOk projectIds orgIdRaw =>
      rw [integrationStep]
      induction projectIds generalizing st with
      | nil => exact h
      | cons p ps ih =>
          rw [List.foldl_cons]
          exact ih _ (gcpProjectStep_typs lw name isOrg enabled stateOk _ st p h)
  | aws name isOrg enabled stateOk roleArn =>
      rw [integrationStep]
      by_cases hmem : awsAccountOf roleArn ∈ st.awsSeen
      · rw [if_pos hmem]
        exact h
      · rw [if_neg hmem]
        intro a ha
        rw [List.mem_append] at ha
        rcases ha with ha | ha
        · exact h a ha
        · rw [List.mem_singleton] at ha
          subst ha
          exact Or.inr (Or.inl rfl)
  | az name isOrg enabled stateOk tenantId subscriptionIds =>
      rw [integrationStep]
      induction subscriptionIds generalizing st with
      | nil => exact h
      | cons u us ih =>
          rw [List.foldl_cons]
          exact ih _ (azSubscriptionStep_typs lw name isOrg enabled stateOk tenantId st u h)
  | other => exact h

theorem integrationPass_typs (lw : String) (organization : Option String)
    (integrations : List IntegrationRow) :
    ∀ a ∈ (integrationPass lw organization integrations).accounts, cfgTyp a := by
  rw [integrationPass]
  have hgen : ∀ (rows : List IntegrationRow) (st : DiscoveryState),
      (∀ a ∈ st.accounts, cfgTyp a) →
      ∀ a ∈ (rows.foldl (integrationStep lw organization) st).accounts, cfgTyp a := by
    intro rows
    induction rows with
    | nil => intro st h; exact h
    | cons row rest ih =>
        intro st h
        rw [List.foldl_cons]
        exact ih _ (integrationStep_typs lw organization st row h)
  exact hgen integrations ⟨[], [], [], []⟩ (fun a ha => absurd ha (List.not_mem_nil a))

/-! ## Claim theorems: cloud-account discovery dedup -/

/-- C7 counterexample: with colon-containing raw identifiers the claim's
uniqueness invariant fails — two GCP integrations (org `a:b`, project `c`
and org `a`, project `b:c`) both canonicalize to the accountId
`gcp:a:b:c`, their dedup keys `c` and `b:c` differ, and both entries are
emitted. -/
theorem claim_C7_counterexample :
    (get_cloud_accounts "LW1" none c7Integrations []).map CloudAccount.accountId =
      ["gcp:a:b:c", "gcp:a:b:c"] ∧
    ¬ ((get_cloud_accounts "LW1" none c7Integrations []).map
        CloudAccount.accountId).Nodup := by
  decide

/-- C7 (amended): provided the raw provider identifiers are colon-free (as
real AWS account numbers, GCP org/project ids and Azure tenant/subscription
ids are), the discovery result never contains two entries with the same
`accountId`; every telemetry-derived (`*Lql`) account's raw identifier was
not recorded in that provider's dedup set during the integration pass; and in
particular a GCP telemetry candidate whose raw project id already appears
among integration-derived accounts is dropped. -/
theorem claim_C7_amended_dedup (lw : String) (organization : Option String)
    (integrations : List IntegrationRow) (machineAccounts : List MachineAccountRow)
    (horg : ∀ o, organization = some o → noColon o)
    (hint : ∀ row ∈ integrations, rowIdsNoColon row)
    (hmac : ∀ m ∈ machineAccounts, machineIdsNoColon m) :
    ((get_cloud_accounts lw organization integrations machineAccounts).map
      CloudAccount.accountId).Nodup ∧
    (∀ a ∈ get_cloud_accounts lw organization integrations machineAccounts,
      (a.typ = "AwsLql" → ∃ k, a.accountId = "aws:" ++ k ∧
        k ∉ (integrationPass lw organization integrations).awsSeen) ∧
      (a.typ = "GcpLql" → ∃ k, a.accountId = "gcp::" ++ k ∧
        k ∉ (integrationPass lw organization integrations).gcpSeen) ∧
      (a.typ = "AzureLql" → ∃ k, a.accountId = "az::" ++ k ∧
        k ∉ (integrationPass lw organization integrations).azSeen)) ∧
    (∀ p ∈ (integrationPass lw organization integrations).gcpSeen,
      ∀ a ∈ get_cloud_accounts lw organization integrations machineAccounts,
        a.typ = "GcpLql" → a.accountId ≠ "gcp::" ++ p) := by
  have hinv1 := integrationPass_inv lw organization integrations horg hint
  have hinvF : DiscInv (machineAccounts.foldl (machineStep lw)
      (integrationPass lw organization integrations)) :=
    machineFold_inv lw machineAccounts _ hmac hinv1
  have htyps := integrationPass_typs lw organization integrations
  have hbase : LqlFresh (integrationPass lw organization integrations)
      (integrationPass lw organization integrations) := by
    refine ⟨fun x hx => hx, fun x hx => hx, fun x hx => hx, ?_⟩
    intro a ha
    have hcfg := htyps a ha
    refine ⟨?_, ?_, ?_⟩ <;> intro habs <;>
      rcases hcfg with h | h | h <;> rw [habs] at h <;> exact absurd h (by decide)
  have hlql := machineFold_lql lw (integrationPass lw organization integrations)
    machineAccounts _ hbase
  refine ⟨hinvF.2, ?_, ?_⟩
  · intro a ha
    exact hlql.2.2.2 a ha
  · intro p hp a ha htyp heq
    obtain ⟨k, hid, hk⟩ := (hlql.2.2.2 a ha).2.1 htyp
    rw [hid] at heq
    exact hk ((string_append_left_cancel "gcp::" k p heq) ▸ hp)

/-- Witness for C7's amended claim at a colon-free input: one GCP and one AWS
integration, an already-integrated AWS telemetry row and GCP project `p1`
(both dropped) and a new GCP telemetry project `p2` (added). -/
theorem claim_C7_amended_dedup_witness :
    ((get_cloud_accounts "LW1" none c7GoodIntegrations c7GoodMachines).map
      CloudAccount.accountId).Nodup ∧
    (get_cloud_accounts "LW1" none c7GoodIntegrations c7GoodMachines).map
      CloudAccount.accountId = ["gcp:o1:p1", "aws:123456789012", "gcp::p2"] :=
  ⟨(claim_C7_amended_dedup "LW1" none c7GoodIntegrations c7GoodMachines
      (fun o ho => nomatch ho)
      (by
        intro row hr
        rw [c7GoodIntegrations, List.mem_cons, List.mem_singleton] at hr
        rcases hr with rfl | rfl
        · refine ⟨by decide, fun o ho => ?_⟩
          injection ho with h
          rw [← h]
          decide
        · exact (by decide :
            noColon (awsAccountOf "arn:aws:iam::123456789012:role/lacework")))
      (by
        intro m hm
        rw [c7GoodMachines, List.mem_cons, List.mem_cons, List.mem_singleton] at hm
        rcases hm with rfl | rfl | rfl
        · refine ⟨fun a ha => ?_, fun p hp => nomatch hp⟩
          injection ha with h
          rw [← h]
          decide
        · refine ⟨fun a ha => (nomatch ha), fun p hp => ?_⟩
          injection hp with h
          rw [← h]
          decide
        · refine ⟨fun a ha => (nomatch ha), fun p hp => ?_⟩
          injection hp with h
          rw [← h]
          decide)).1,
    by decide⟩
